import Mathlib

/-!
# rcl_timer/src/timer.cpp : the single-timer dispatch loop

A shallow embedding of `main` of `src/rcl_timer/src/timer.cpp`.

`main` is a sequence of calls into the rcl library.  The library is outside
the repository, so every result it hands back is an input of the model: a
`World` fixes, for each call site and each loop iteration, the code the call
returns and what `rcl_wait` leaves in the wait set.  The model of `main`
records every rcl call (with the code it returned), every `new`/`delete` and
every `printf` of `main` in a trace, and threads the local variable `ret`
exactly as the source does.

The source is compiled with `TEST_TIMER_RESET` defined as `0`, so the three
`#if TEST_TIMER_RESET` regions are not part of the program.
-/

namespace RclTimer

/-- The type `rcl_ret_t` of the rcl headers (a typedef of `int`). -/
abbrev rcl_ret_t := Int

/-- The two result codes `main` compares against.  Their numeric values are
macros of `rcl/types.h`, which is not in the repository, so they are
parameters; the code only needs them to be different. -/
structure RclCodes where
  RCL_RET_OK : rcl_ret_t
  RCL_RET_TIMEOUT : rcl_ret_t
  distinct : RCL_RET_OK ≠ RCL_RET_TIMEOUT

/-- The values the rcl headers give the two codes. -/
def rclCodes : RclCodes := ⟨0, 2, by decide⟩

/-- The macro `OFFSET_MS`. -/
def OFFSET_MS : Int := 1000

/-- The macro `WAIT_SET_TIMEOUT_MS`. -/
def WAIT_SET_TIMEOUT_MS : Int := 5000

/-- The rcl functions `main` calls that return an `rcl_ret_t`. -/
inductive Fn
  /-- The call `rcl_init_options_init(&init_opts, rcl_get_default_allocator())`. -/
  | rcl_init_options_init
  /-- The call `rcl_init(argc, argv, &init_opts, &context)`. -/
  | rcl_init
  /-- The call `rcl_clock_init(RCL_STEADY_TIME, clock, &allocator)`. -/
  | rcl_clock_init
  /-- The call
  `rcl_timer_init(timer, clock, &context, RCL_MS_TO_NS(OFFSET_MS), timer_cb, allocator)`. -/
  | rcl_timer_init
  /-- The call `rcl_wait_set_init(wait_set, 0, 0, 1, 0, 0, 0, &context, allocator)`. -/
  | rcl_wait_set_init
  /-- The call `rcl_wait_set_clear(wait_set)`. -/
  | rcl_wait_set_clear
  /-- The call `rcl_wait_set_add_timer(wait_set, timer, &index)`. -/
  | rcl_wait_set_add_timer
  /-- The call `rcl_wait(wait_set, RCL_MS_TO_NS(WAIT_SET_TIMEOUT_MS))`. -/
  | rcl_wait
  /-- The call `rcl_timer_call(timer)`. -/
  | rcl_timer_call
  /-- The call `rcl_clock_fini(clock)`. -/
  | rcl_clock_fini
  /-- The call `rcl_timer_fini(timer)`. -/
  | rcl_timer_fini
  /-- The call `rcl_wait_set_fini(wait_set)`. -/
  | rcl_wait_set_fini
  /-- The call `rcl_shutdown(&context)`. -/
  | rcl_shutdown
  deriving DecidableEq, Repr

/-- The three heap objects of `main`: `clock`, `timer`, `wait_set`. -/
inductive Obj
  | clock
  | timer
  | wait_set
  deriving DecidableEq, Repr

/-- The `printf` sites of `main`, in source order. -/
inductive Msg
  | init_options_failed
  | rcl_init_failed
  | clock_init_failed
  | timer_init_failed
  | wait_set_init_failed
  | clear_failed
  | add_timer_failed
  | no_awake_timer
  | wait_failed
  | timer_call_failed
  | without_nonnull_timer
  | clock_fini_failed
  | timer_fini_failed
  | wait_set_fini_failed
  | shutdown_failed
  deriving DecidableEq, Repr

/-- The format string of each `printf` site. -/
def Msg.format : Msg → String
  | .init_options_failed => "failed to initialize init options. ret=%d\n"
  | .rcl_init_failed => "failed to initialize rcl. ret=%d\n"
  | .clock_init_failed => "failed to initialize clock. ret=%d\n"
  | .timer_init_failed => "failed to initilize timer, ret=%d\n"
  | .wait_set_init_failed => "failed to initilize wait set, ret=%d\n"
  | .clear_failed => "failed to clear wait set, ret=%d\n"
  | .add_timer_failed => "failed to add timer to wait set, ret=%d\n"
  | .no_awake_timer => "no awake timer during %d ms\n"
  | .wait_failed => "failed to wait, ret=%d\n"
  | .timer_call_failed => "failed to call timer callback , ret=%d\n"
  | .without_nonnull_timer => "!!!!! rcl_wait was returned without non-null timer !!!!!!\n"
  | .clock_fini_failed => "Failed to finalize a clock, ret=%d\n"
  | .timer_fini_failed => "Failed to finalize a timer, ret=%d\n"
  | .wait_set_fini_failed => "Failed to finalize a wait set, ret=%d\n"
  | .shutdown_failed => "Failed to shutdown rcl context., ret=%d\n"

/-- What `main` does that can be observed, in program order. -/
inductive Ev
  /-- A call of an rcl function, with the code it returned. -/
  | call (f : Fn) (r : rcl_ret_t)
  /-- The statement `x = new T()`. -/
  | alloc (o : Obj)
  /-- The statement `delete x`. -/
  | free (o : Obj)
  /-- A `printf` of `main`, with the values of its arguments. -/
  | printf (m : Msg) (args : List Int)
  deriving DecidableEq, Repr

/-- The results the rcl library hands back to `main`.  The loop calls
`rcl_wait_set_clear`, `rcl_wait_set_add_timer` and `rcl_wait` at most once
in an iteration and `rcl_timer_call` at most once for an index `i` of the
scan, so their results are indexed by the iteration `n`, counted from 0
(and by `i`).  `size_of_timers n` and `timers n i` are the field
`wait_set->size_of_timers` and whether `wait_set->timers[i]` is non-null
once the `rcl_wait` of iteration `n` has returned; `rcl_timer_call(timer)`
is not handed the wait set and leaves both as they are. -/
structure World where
  init_options_init : rcl_ret_t
  init : rcl_ret_t
  clock_init : rcl_ret_t
  timer_init : rcl_ret_t
  wait_set_init : rcl_ret_t
  wait_set_clear : Nat → rcl_ret_t
  wait_set_add_timer : Nat → rcl_ret_t
  wait : Nat → rcl_ret_t
  size_of_timers : Nat → Nat
  timers : Nat → Nat → Bool
  timer_call : Nat → Nat → rcl_ret_t
  clock_fini : rcl_ret_t
  timer_fini : rcl_ret_t
  wait_set_fini : rcl_ret_t
  shutdown : rcl_ret_t

/-- Where control goes when a piece of `main` is done: on to the next
statement (for the loop body: to the test `while (!exit_cond)`, which is
also where `continue` goes), or to the label `_error`. -/
inductive Flow
  | next
  | goto_error
  deriving DecidableEq, Repr

/-- The conversion `(int) wait_set->size_of_timers` of a `size_t` to a
32-bit `int`. -/
def castInt (n : Nat) : Int :=
  if n % 2 ^ 32 < 2 ^ 31 then (n % 2 ^ 32 : Nat) else (n % 2 ^ 32 : Nat) - 2 ^ 32

/-- The number of times the body of
`for (i=0; i<(int) wait_set->size_of_timers; i++)` is entered when no
`goto` leaves it. -/
def scanCount (size : Nat) : Nat := (castInt size).toNat

/-- The scan of the ready members in iteration `n`,
`for (i=0; i<(int) wait_set->size_of_timers; i++) { if (wait_set->timers[i]) { ... } }`,
from index `i` on with `todo` indices left; `ret` and `has` are the current
values of `ret` and `has_nonnull_timer`.  Gives the trace, where control
goes, and the final `ret` and `has_nonnull_timer`. -/
def scan (K : RclCodes) (w : World) (n : Nat) :
    Nat → Nat → rcl_ret_t → Bool → List Ev × Flow × rcl_ret_t × Bool
  | 0, _, ret, has => ([], Flow.next, ret, has)
  | todo + 1, i, ret, has =>
    if w.timers n i then
      if w.timer_call n i ≠ K.RCL_RET_OK then
        ([Ev.call Fn.rcl_timer_call (w.timer_call n i),
          Ev.printf Msg.timer_call_failed [w.timer_call n i]],
         Flow.goto_error, w.timer_call n i, has)
      else
        let rest := scan K w n todo (i + 1) (w.timer_call n i) true
        (Ev.call Fn.rcl_timer_call (w.timer_call n i) :: rest.1, rest.2)
    else
      scan K w n todo (i + 1) ret has

/-- The body of the `do ... while` loop in iteration `n`: the trace, where
control goes, and the value of `ret`. -/
def loopBody (K : RclCodes) (w : World) (n : Nat) : List Ev × Flow × rcl_ret_t :=
  if w.wait_set_clear n ≠ K.RCL_RET_OK then
    ([Ev.call Fn.rcl_wait_set_clear (w.wait_set_clear n),
      Ev.printf Msg.clear_failed [w.wait_set_clear n]],
     Flow.goto_error, w.wait_set_clear n)
  else if w.wait_set_add_timer n ≠ K.RCL_RET_OK then
    ([Ev.call Fn.rcl_wait_set_clear (w.wait_set_clear n),
      Ev.call Fn.rcl_wait_set_add_timer (w.wait_set_add_timer n),
      Ev.printf Msg.add_timer_failed [w.wait_set_add_timer n]],
     Flow.goto_error, w.wait_set_add_timer n)
  else if w.wait n = K.RCL_RET_TIMEOUT then
    ([Ev.call Fn.rcl_wait_set_clear (w.wait_set_clear n),
      Ev.call Fn.rcl_wait_set_add_timer (w.wait_set_add_timer n),
      Ev.call Fn.rcl_wait (w.wait n),
      Ev.printf Msg.no_awake_timer [WAIT_SET_TIMEOUT_MS]],
     Flow.next, w.wait n)
  else if w.wait n ≠ K.RCL_RET_OK then
    ([Ev.call Fn.rcl_wait_set_clear (w.wait_set_clear n),
      Ev.call Fn.rcl_wait_set_add_timer (w.wait_set_add_timer n),
      Ev.call Fn.rcl_wait (w.wait n),
      Ev.printf Msg.wait_failed [w.wait n]],
     Flow.goto_error, w.wait n)
  else
    let s := scan K w n (scanCount (w.size_of_timers n)) 0 (w.wait n) false
    let head := [Ev.call Fn.rcl_wait_set_clear (w.wait_set_clear n),
      Ev.call Fn.rcl_wait_set_add_timer (w.wait_set_add_timer n),
      Ev.call Fn.rcl_wait (w.wait n)]
    match s.2.1 with
    | Flow.goto_error => (head ++ s.1, Flow.goto_error, s.2.2.1)
    | Flow.next =>
      (head ++ s.1 ++
        (if !s.2.2.2 then [Ev.printf Msg.without_nonnull_timer []] else []),
       Flow.next, s.2.2.1)

/-- The loop `do { ... } while (!exit_cond);` from iteration `n` on, run for
at most `fuel` iterations, `ret` being the value of `ret` on entry.  The
second component is `none` while the loop is still running after `fuel`
iterations, and `some ret` once control is at the label `_error` (by a
`goto` or because the test failed). -/
def doWhile (K : RclCodes) (w : World) (exit_cond : Bool) :
    Nat → Nat → List Ev × Option rcl_ret_t
  | 0, _ => ([], none)
  | fuel + 1, n =>
    let b := loopBody K w n
    match b.2.1 with
    | Flow.goto_error => (b.1, some b.2.2)
    | Flow.next =>
      if !exit_cond then
        let rest := doWhile K w exit_cond fuel (n + 1)
        (b.1 ++ rest.1, rest.2)
      else (b.1, some b.2.2)

/-- The construction of the clock, the timer and the wait set (source lines
51 to 75): the trace, where control goes, `ret`, and whether `clock`,
`timer` and `wait_set` are non-null afterwards. -/
def construct (K : RclCodes) (w : World) :
    List Ev × Flow × rcl_ret_t × Bool × Bool × Bool :=
  if w.clock_init ≠ K.RCL_RET_OK then
    ([Ev.alloc Obj.clock, Ev.call Fn.rcl_clock_init w.clock_init,
      Ev.printf Msg.clock_init_failed [w.clock_init]],
     Flow.goto_error, w.clock_init, true, false, false)
  else if w.timer_init ≠ K.RCL_RET_OK then
    ([Ev.alloc Obj.clock, Ev.call Fn.rcl_clock_init w.clock_init,
      Ev.alloc Obj.timer, Ev.call Fn.rcl_timer_init w.timer_init,
      Ev.printf Msg.timer_init_failed [w.timer_init]],
     Flow.goto_error, w.timer_init, true, true, false)
  else if w.wait_set_init ≠ K.RCL_RET_OK then
    ([Ev.alloc Obj.clock, Ev.call Fn.rcl_clock_init w.clock_init,
      Ev.alloc Obj.timer, Ev.call Fn.rcl_timer_init w.timer_init,
      Ev.alloc Obj.wait_set, Ev.call Fn.rcl_wait_set_init w.wait_set_init,
      Ev.printf Msg.wait_set_init_failed [w.wait_set_init]],
     Flow.goto_error, w.wait_set_init, true, true, true)
  else
    ([Ev.alloc Obj.clock, Ev.call Fn.rcl_clock_init w.clock_init,
      Ev.alloc Obj.timer, Ev.call Fn.rcl_timer_init w.timer_init,
      Ev.alloc Obj.wait_set, Ev.call Fn.rcl_wait_set_init w.wait_set_init],
     Flow.next, w.wait_set_init, true, true, true)

/-- The code at the label `_error` up to `return ret` (source lines 146 to
177); `ret` is the value on arrival, and `clock`, `timer`, `wait_set` say
which of the three pointers are non-null.  Gives the trace and the value
returned. -/
def teardown (K : RclCodes) (w : World) (ret : rcl_ret_t)
    (clock timer wait_set : Bool) : List Ev × rcl_ret_t :=
  let s1 : List Ev × rcl_ret_t :=
    if clock then
      ([Ev.call Fn.rcl_clock_fini w.clock_fini] ++
        (if w.clock_fini ≠ K.RCL_RET_OK then
          [Ev.printf Msg.clock_fini_failed [w.clock_fini]] else []) ++
        [Ev.free Obj.clock], w.clock_fini)
    else ([], ret)
  let s2 : List Ev × rcl_ret_t :=
    if timer then
      (s1.1 ++ [Ev.call Fn.rcl_timer_fini w.timer_fini] ++
        (if w.timer_fini ≠ K.RCL_RET_OK then
          [Ev.printf Msg.timer_fini_failed [w.timer_fini]] else []) ++
        [Ev.free Obj.timer], w.timer_fini)
    else s1
  let s3 : List Ev × rcl_ret_t :=
    if wait_set then
      (s2.1 ++ [Ev.call Fn.rcl_wait_set_fini w.wait_set_fini] ++
        (if w.wait_set_fini ≠ K.RCL_RET_OK then
          [Ev.printf Msg.wait_set_fini_failed [w.wait_set_fini]] else []) ++
        [Ev.free Obj.wait_set], w.wait_set_fini)
    else s2
  (s3.1 ++ [Ev.call Fn.rcl_shutdown w.shutdown] ++
    (if w.shutdown ≠ K.RCL_RET_OK then
      [Ev.printf Msg.shutdown_failed [w.shutdown]] else []),
   w.shutdown)

/-- The part of `main` after the two bootstrap calls (source lines 48 to
177), with the local `exit_cond` as a parameter. -/
def mainFrom (K : RclCodes) (w : World) (exit_cond : Bool) (fuel : Nat) :
    List Ev × Option rcl_ret_t :=
  let c := construct K w
  let l : List Ev × Option rcl_ret_t :=
    match c.2.1 with
    | Flow.goto_error => (c.1, some c.2.2.1)
    | Flow.next =>
      let d := doWhile K w exit_cond fuel 0
      (c.1 ++ d.1, d.2)
  match l.2 with
  | none => (l.1, none)
  | some ret =>
    let t := teardown K w ret c.2.2.2.1 c.2.2.2.2.1 c.2.2.2.2.2
    (l.1 ++ t.1, some t.2)

/-- The function `main`, with the loop run for at most `fuel` iterations:
the trace, and `some` of the value `main` returns, or `none` while the loop
is still running.  `exit_cond` is initialised to `false` and assigned
nowhere. -/
def main (K : RclCodes) (w : World) (fuel : Nat) : List Ev × Option rcl_ret_t :=
  if w.init_options_init ≠ K.RCL_RET_OK then
    ([Ev.call Fn.rcl_init_options_init w.init_options_init,
      Ev.printf Msg.init_options_failed [w.init_options_init]],
     some w.init_options_init)
  else if w.init ≠ K.RCL_RET_OK then
    ([Ev.call Fn.rcl_init_options_init w.init_options_init,
      Ev.call Fn.rcl_init w.init,
      Ev.printf Msg.rcl_init_failed [w.init]],
     some w.init)
  else
    let m := mainFrom K w false fuel
    ([Ev.call Fn.rcl_init_options_init w.init_options_init,
      Ev.call Fn.rcl_init w.init] ++ m.1, m.2)

/-- The world in which every call returns `RCL_RET_OK` (0), the wait set has
one timer slot, and the slot is non-null after every wait. -/
def okWorld : World where
  init_options_init := 0
  init := 0
  clock_init := 0
  timer_init := 0
  wait_set_init := 0
  wait_set_clear := fun _ => 0
  wait_set_add_timer := fun _ => 0
  wait := fun _ => 0
  size_of_timers := fun _ => 1
  timers := fun _ _ => true
  timer_call := fun _ _ => 0
  clock_fini := 0
  timer_fini := 0
  wait_set_fini := 0
  shutdown := 0

/-! ## Reading a trace -/

/-- Whether an event is a call of the rcl function `f`. -/
def Ev.isCallOf (f : Fn) : Ev → Bool
  | Ev.call g _ => decide (g = f)
  | _ => false

/-- The number of calls of `f` in a trace. -/
def countCalls (f : Fn) (tr : List Ev) : Nat := tr.countP (Ev.isCallOf f)

/-- The operations of the loop: clear, add, wait, fire. -/
def Fn.isLoopOp : Fn → Bool
  | Fn.rcl_wait_set_clear => true
  | Fn.rcl_wait_set_add_timer => true
  | Fn.rcl_wait => true
  | Fn.rcl_timer_call => true
  | _ => false

/-- The three constructions: clock init, timer init, wait-set init. -/
def Fn.isConstruction : Fn → Bool
  | Fn.rcl_clock_init => true
  | Fn.rcl_timer_init => true
  | Fn.rcl_wait_set_init => true
  | _ => false

/-- The three finalizations. -/
def Fn.isFini : Fn → Bool
  | Fn.rcl_clock_fini => true
  | Fn.rcl_timer_fini => true
  | Fn.rcl_wait_set_fini => true
  | _ => false

/-- A construction or a loop operation. -/
def Fn.isOp (f : Fn) : Bool := f.isConstruction || f.isLoopOp

/-- The finalization function of each object. -/
def Obj.fini : Obj → Fn
  | Obj.clock => Fn.rcl_clock_fini
  | Obj.timer => Fn.rcl_timer_fini
  | Obj.wait_set => Fn.rcl_wait_set_fini

/-- The message `main` prints when a finalization or the shutdown fails. -/
def finiMsg : Fn → Msg
  | Fn.rcl_clock_fini => Msg.clock_fini_failed
  | Fn.rcl_timer_fini => Msg.timer_fini_failed
  | Fn.rcl_wait_set_fini => Msg.wait_set_fini_failed
  | _ => Msg.shutdown_failed

/-- A result `r` of the operation `f` is fatal: it is not `RCL_RET_OK`, and
it is not the `RCL_RET_TIMEOUT` of `rcl_wait`. -/
def fatal (K : RclCodes) (f : Fn) (r : rcl_ret_t) : Bool :=
  decide (r ≠ K.RCL_RET_OK) && !(decide (f = Fn.rcl_wait) && decide (r = K.RCL_RET_TIMEOUT))

/-- An event is a construction or loop operation that returned a fatal result. -/
def Ev.isFatal (K : RclCodes) : Ev → Bool
  | Ev.call f r => f.isOp && fatal K f r
  | _ => false

/-- An event is a call of a construction or of a loop operation. -/
def Ev.isOpCall : Ev → Bool
  | Ev.call f _ => f.isOp
  | _ => false

/-- Every call returns `RCL_RET_OK`, except `rcl_clock_init`, which returns 1. -/
def clockInitFails : World := { okWorld with clock_init := 1 }

/-- Every call returns `RCL_RET_OK`, except `rcl_timer_init`, which returns 1. -/
def timerInitFails : World := { okWorld with timer_init := 1 }

/-- Every call returns `RCL_RET_OK`, except the first `rcl_wait_set_clear`,
which returns 1. -/
def firstClearFails : World :=
  { okWorld with wait_set_clear := fun n => if n = 0 then 1 else 0 }

/-- The first wait times out, the second returns `RCL_RET_OK` with the timer
slot null, the third returns `RCL_RET_OK` with the slot non-null and the fire
fails with 1; in the teardown `rcl_clock_fini` returns 7 and
`rcl_wait_set_fini` returns 9. -/
def mixedWorld : World :=
  { okWorld with
    wait := fun n => if n = 0 then 2 else 0
    timers := fun n _ => decide (n = 2)
    timer_call := fun n _ => if n = 2 then 1 else 0
    clock_fini := 7
    wait_set_fini := 9 }

/-! ## Predicates on traces used in the proofs -/

/-- An event of the loop: a call of a loop operation, or a `printf`. -/
def Ev.inLoop : Ev → Bool
  | Ev.call f _ => f.isLoopOp
  | Ev.printf _ _ => true
  | _ => false

/-- No event of the trace is a construction or loop operation with a fatal
result. -/
def Clean (K : RclCodes) (tr : List Ev) : Prop := ∀ e ∈ tr, Ev.isFatal K e = false

/-- The trace ends with a loop operation that returned the fatal result
`ret`, followed by the `printf` of `ret`; nothing before it is fatal. -/
def FailShape (K : RclCodes) (tr : List Ev) (ret : rcl_ret_t) : Prop :=
  ∃ pre f m, tr = pre ++ [Ev.call f ret, Ev.printf m [ret]] ∧ Clean K pre ∧
    f.isLoopOp = true ∧ fatal K f ret = true

/-- The three calls every iteration makes before it looks at the wait set. -/
def iterationHead (w : World) (n : Nat) : List Ev :=
  [Ev.call Fn.rcl_wait_set_clear (w.wait_set_clear n),
   Ev.call Fn.rcl_wait_set_add_timer (w.wait_set_add_timer n),
   Ev.call Fn.rcl_wait (w.wait n)]

/-- An iteration in which nothing fails: clear and add return `RCL_RET_OK`,
wait returns `RCL_RET_OK` or `RCL_RET_TIMEOUT`, and every fire returns
`RCL_RET_OK`. -/
def IterationOk (K : RclCodes) (w : World) (n : Nat) : Prop :=
  w.wait_set_clear n = K.RCL_RET_OK ∧ w.wait_set_add_timer n = K.RCL_RET_OK ∧
  (w.wait n = K.RCL_RET_OK ∨ w.wait n = K.RCL_RET_TIMEOUT) ∧
  ∀ i, w.timer_call n i = K.RCL_RET_OK

/-- One guarded block of the teardown, `if (x) { ret = fini(x); if (ret != RCL_RET_OK) printf(...); delete x; }`,
as a trace: `b` says whether `x` is non-null, `r` is the result of the
finalization `f` of the object `o`. -/
def finiBlock (K : RclCodes) (b : Bool) (f : Fn) (r : rcl_ret_t) (o : Obj) : List Ev :=
  if b then
    [Ev.call f r] ++ (if r ≠ K.RCL_RET_OK then [Ev.printf (finiMsg f) [r]] else []) ++
      [Ev.free o]
  else []

/-- The trace of the last block of the teardown, the call of `rcl_shutdown`
with its `printf`. -/
def shutdownBlock (K : RclCodes) (r : rcl_ret_t) : List Ev :=
  [Ev.call Fn.rcl_shutdown r] ++
    (if r ≠ K.RCL_RET_OK then [Ev.printf Msg.shutdown_failed [r]] else [])

/-- An event of the teardown: a finalization, the shutdown, a `delete` or a
`printf`. -/
def Ev.inTeardown : Ev → Bool
  | Ev.call f _ => f.isFini || decide (f = Fn.rcl_shutdown)
  | Ev.free _ => true
  | Ev.printf _ _ => true
  | Ev.alloc _ => false

/-- The trace of the three constructions when all of them succeed. -/
def constructTrace (w : World) : List Ev :=
  [Ev.alloc Obj.clock, Ev.call Fn.rcl_clock_init w.clock_init,
   Ev.alloc Obj.timer, Ev.call Fn.rcl_timer_init w.timer_init,
   Ev.alloc Obj.wait_set, Ev.call Fn.rcl_wait_set_init w.wait_set_init]

/-- The trace of the two bootstrap calls when both succeed. -/
def bootTrace (w : World) : List Ev :=
  [Ev.call Fn.rcl_init_options_init w.init_options_init, Ev.call Fn.rcl_init w.init]

/-- Whether `timer` is non-null once the operation `f` has been reached. -/
def timerAllocated (f : Fn) : Bool := decide (f ≠ Fn.rcl_clock_init)

/-- Whether `wait_set` is non-null once the operation `f` has been reached. -/
def waitSetAllocated (f : Fn) : Bool :=
  decide (f ≠ Fn.rcl_clock_init) && decide (f ≠ Fn.rcl_timer_init)

/-- The trace of a run that has left the loop or never entered it: a part
`pre` without fatal result, then the operation `f` with the fatal result
`r`, the `printf` of `r`, and the teardown.  When `f` is a construction,
`pre` holds no loop operation. -/
def RunShape (K : RclCodes) (w : World) (tr : List Ev) : Prop :=
  ∃ pre f r m, tr = pre ++ Ev.call f r :: Ev.printf m [r] ::
      (teardown K w r true (timerAllocated f) (waitSetAllocated f)).1 ∧
    Clean K pre ∧ f.isOp = true ∧ fatal K f r = true ∧
    (f.isConstruction = true → ∀ g s, Ev.call g s ∈ pre → g.isLoopOp = false)

/-- An event that is not part of the teardown: no finalization, no shutdown,
no `delete`. -/
def Ev.beforeTeardown : Ev → Bool
  | Ev.call f _ => !(f.isFini || decide (f = Fn.rcl_shutdown))
  | Ev.free _ => false
  | _ => true

/-- The indices `i`, ..., `i + todo - 1` whose entry of `wait_set->timers` is
non-null after the wait of iteration `n`. -/
def readyFrom (w : World) (n i todo : Nat) : List Nat :=
  (List.range' i todo).filter (fun j => w.timers n j)

/-- The first wait returns `RCL_RET_OK` and leaves the timer slot null; every
call returns `RCL_RET_OK`. -/
def spuriousWorld : World := { okWorld with timers := fun _ _ => false }

/-! ## Basic facts -/

theorem castInt_le (n : Nat) : castInt n ≤ (n : Int) := by
  unfold castInt
  have h : n % 2 ^ 32 ≤ n := Nat.mod_le _ _
  split <;> omega

theorem scanCount_le (n : Nat) : scanCount n ≤ n := by
  unfold scanCount
  have := castInt_le n
  omega

/-- A scan over null entries does nothing. -/
theorem scan_null (K : RclCodes) (w : World) (n : Nat) (todo : Nat) :
    ∀ (i : Nat) (ret : rcl_ret_t) (has : Bool),
      (∀ j, i ≤ j → j < i + todo → w.timers n j = false) →
      scan K w n todo i ret has = ([], Flow.next, ret, has) := by
  induction todo with
  | zero => intro i ret has _; rfl
  | succ t ih =>
    intro i ret has h
    have h0 : w.timers n i = false := h i (Nat.le_refl _) (by omega)
    simp only [scan, h0]
    exact ih (i + 1) ret has (fun j h1 h2 => h j (by omega) (by omega))

theorem Clean.nil (K : RclCodes) : Clean K [] := by
  intro e he; cases he

theorem Clean.append {K : RclCodes} {a b : List Ev} (ha : Clean K a) (hb : Clean K b) :
    Clean K (a ++ b) := by
  intro e he
  rcases List.mem_append.mp he with h | h
  · exact ha e h
  · exact hb e h

theorem Clean.cons {K : RclCodes} {e : Ev} {b : List Ev} (he : Ev.isFatal K e = false)
    (hb : Clean K b) : Clean K (e :: b) := by
  intro x hx
  rcases List.mem_cons.mp hx with h | h
  · rw [h]; exact he
  · exact hb x h

theorem failShape_prepend {K : RclCodes} {a tr : List Ev} {ret : rcl_ret_t}
    (ha : Clean K a) (h : FailShape K tr ret) : FailShape K (a ++ tr) ret := by
  obtain ⟨pre, f, m, htr, hpre, hf, hfat⟩ := h
  exact ⟨a ++ pre, f, m, by rw [htr, List.append_assoc], ha.append hpre, hf, hfat⟩

theorem isFatal_call_ok (K : RclCodes) (f : Fn) : Ev.isFatal K (Ev.call f K.RCL_RET_OK) = false := by
  simp [Ev.isFatal, fatal]

theorem isFatal_wait_timeout (K : RclCodes) :
    Ev.isFatal K (Ev.call Fn.rcl_wait K.RCL_RET_TIMEOUT) = false := by
  simp [Ev.isFatal, fatal]

theorem fatal_of_ne_ok (K : RclCodes) (f : Fn) (r : rcl_ret_t) (h : r ≠ K.RCL_RET_OK)
    (hf : f ≠ Fn.rcl_wait) : fatal K f r = true := by
  simp [fatal, h, hf]

theorem fatal_wait (K : RclCodes) (r : rcl_ret_t) (h : r ≠ K.RCL_RET_OK)
    (ht : r ≠ K.RCL_RET_TIMEOUT) : fatal K Fn.rcl_wait r = true := by
  simp [fatal, h, ht]

/-- The scan: every event is an event of the loop; if control falls through,
nothing fatal happened; if it leaves by `goto _error`, the trace ends with
the failed fire. -/
theorem scan_shape (K : RclCodes) (w : World) (n : Nat) (todo : Nat) :
    ∀ (i : Nat) (ret : rcl_ret_t) (has : Bool),
      (∀ e ∈ (scan K w n todo i ret has).1, Ev.inLoop e = true) ∧
      ((scan K w n todo i ret has).2.1 = Flow.next →
        Clean K (scan K w n todo i ret has).1 ∧
        (ret = K.RCL_RET_OK → (scan K w n todo i ret has).2.2.1 = K.RCL_RET_OK)) ∧
      ((scan K w n todo i ret has).2.1 = Flow.goto_error →
        FailShape K (scan K w n todo i ret has).1 (scan K w n todo i ret has).2.2.1) := by
  induction todo with
  | zero =>
    intro i ret has
    refine ⟨?_, ?_, ?_⟩
    · intro e he; cases he
    · intro _; exact ⟨Clean.nil K, fun h => h⟩
    · intro h; cases h
  | succ t ih =>
    intro i ret has
    by_cases ht : w.timers n i = true
    · by_cases hc : w.timer_call n i = K.RCL_RET_OK
      · have hs : scan K w n (t + 1) i ret has =
            (Ev.call Fn.rcl_timer_call (w.timer_call n i) ::
              (scan K w n t (i + 1) (w.timer_call n i) true).1,
             (scan K w n t (i + 1) (w.timer_call n i) true).2) := by
          simp [scan, ht, hc]
        obtain ⟨h1, h2, h3⟩ := ih (i + 1) (w.timer_call n i) true
        rw [hs]
        refine ⟨?_, ?_, ?_⟩
        · intro e he
          rcases List.mem_cons.mp he with h | h
          · rw [h]; rfl
          · exact h1 e h
        · intro hn
          refine ⟨Clean.cons ?_ (h2 hn).1, fun _ => (h2 hn).2 hc⟩
          rw [hc]; exact isFatal_call_ok K _
        · intro hg
          have := h3 hg
          exact failShape_prepend (a := [Ev.call Fn.rcl_timer_call (w.timer_call n i)])
            (Clean.cons (by rw [hc]; exact isFatal_call_ok K _) (Clean.nil K)) this
      · have hs : scan K w n (t + 1) i ret has =
            ([Ev.call Fn.rcl_timer_call (w.timer_call n i),
              Ev.printf Msg.timer_call_failed [w.timer_call n i]],
             Flow.goto_error, w.timer_call n i, has) := by
          simp [scan, ht, hc]
        rw [hs]
        refine ⟨?_, ?_, ?_⟩
        · intro e he
          simp only [List.mem_cons, List.mem_singleton, List.not_mem_nil, or_false] at he
          rcases he with h | h <;> rw [h] <;> rfl
        · intro h; cases h
        · intro _
          exact ⟨[], Fn.rcl_timer_call, Msg.timer_call_failed, rfl, Clean.nil K, rfl,
            fatal_of_ne_ok K _ _ hc (by decide)⟩
    · have hs : scan K w n (t + 1) i ret has = scan K w n t (i + 1) ret has := by
        simp [scan, ht]
      rw [hs]
      exact ih (i + 1) ret has

/-! ## The loop body, case by case -/

theorem loopBody_clear_failed (K : RclCodes) (w : World) (n : Nat)
    (h : w.wait_set_clear n ≠ K.RCL_RET_OK) :
    loopBody K w n =
      ([Ev.call Fn.rcl_wait_set_clear (w.wait_set_clear n),
        Ev.printf Msg.clear_failed [w.wait_set_clear n]],
       Flow.goto_error, w.wait_set_clear n) := by
  simp [loopBody, h]

theorem loopBody_add_failed (K : RclCodes) (w : World) (n : Nat)
    (h1 : w.wait_set_clear n = K.RCL_RET_OK)
    (h2 : w.wait_set_add_timer n ≠ K.RCL_RET_OK) :
    loopBody K w n =
      ([Ev.call Fn.rcl_wait_set_clear (w.wait_set_clear n),
        Ev.call Fn.rcl_wait_set_add_timer (w.wait_set_add_timer n),
        Ev.printf Msg.add_timer_failed [w.wait_set_add_timer n]],
       Flow.goto_error, w.wait_set_add_timer n) := by
  simp [loopBody, h1, h2]

theorem loopBody_timeout (K : RclCodes) (w : World) (n : Nat)
    (h1 : w.wait_set_clear n = K.RCL_RET_OK)
    (h2 : w.wait_set_add_timer n = K.RCL_RET_OK)
    (h3 : w.wait n = K.RCL_RET_TIMEOUT) :
    loopBody K w n =
      ([Ev.call Fn.rcl_wait_set_clear (w.wait_set_clear n),
        Ev.call Fn.rcl_wait_set_add_timer (w.wait_set_add_timer n),
        Ev.call Fn.rcl_wait (w.wait n),
        Ev.printf Msg.no_awake_timer [WAIT_SET_TIMEOUT_MS]],
       Flow.next, w.wait n) := by
  simp [loopBody, h1, h2, h3]

theorem loopBody_wait_failed (K : RclCodes) (w : World) (n : Nat)
    (h1 : w.wait_set_clear n = K.RCL_RET_OK)
    (h2 : w.wait_set_add_timer n = K.RCL_RET_OK)
    (h3 : w.wait n ≠ K.RCL_RET_TIMEOUT) (h4 : w.wait n ≠ K.RCL_RET_OK) :
    loopBody K w n =
      ([Ev.call Fn.rcl_wait_set_clear (w.wait_set_clear n),
        Ev.call Fn.rcl_wait_set_add_timer (w.wait_set_add_timer n),
        Ev.call Fn.rcl_wait (w.wait n),
        Ev.printf Msg.wait_failed [w.wait n]],
       Flow.goto_error, w.wait n) := by
  simp [loopBody, h1, h2, h3, h4]

theorem loopBody_wait_ok (K : RclCodes) (w : World) (n : Nat)
    (h1 : w.wait_set_clear n = K.RCL_RET_OK)
    (h2 : w.wait_set_add_timer n = K.RCL_RET_OK)
    (h3 : w.wait n = K.RCL_RET_OK) :
    loopBody K w n =
      match (scan K w n (scanCount (w.size_of_timers n)) 0 (w.wait n) false).2.1 with
      | Flow.goto_error =>
        (iterationHead w n ++
          (scan K w n (scanCount (w.size_of_timers n)) 0 (w.wait n) false).1,
         Flow.goto_error,
         (scan K w n (scanCount (w.size_of_timers n)) 0 (w.wait n) false).2.2.1)
      | Flow.next =>
        (iterationHead w n ++
          (scan K w n (scanCount (w.size_of_timers n)) 0 (w.wait n) false).1 ++
          (if !(scan K w n (scanCount (w.size_of_timers n)) 0 (w.wait n) false).2.2.2
            then [Ev.printf Msg.without_nonnull_timer []] else []),
         Flow.next,
         (scan K w n (scanCount (w.size_of_timers n)) 0 (w.wait n) false).2.2.1) := by
  have hne : ¬ (K.RCL_RET_OK = K.RCL_RET_TIMEOUT) := K.distinct
  simp only [loopBody, iterationHead, h1, h2, h3, ne_eq, not_true_eq_false, if_false, hne]

theorem iterationHead_clean (K : RclCodes) (w : World) (n : Nat)
    (h1 : w.wait_set_clear n = K.RCL_RET_OK)
    (h2 : w.wait_set_add_timer n = K.RCL_RET_OK)
    (h3 : w.wait n = K.RCL_RET_OK ∨ w.wait n = K.RCL_RET_TIMEOUT) :
    Clean K (iterationHead w n) := by
  unfold iterationHead
  refine Clean.cons (by rw [h1]; exact isFatal_call_ok K _)
    (Clean.cons (by rw [h2]; exact isFatal_call_ok K _) (Clean.cons ?_ (Clean.nil K)))
  rcases h3 with h | h
  · rw [h]; exact isFatal_call_ok K _
  · rw [h]; exact isFatal_wait_timeout K

/-- The loop body: every event is an event of the loop; if control reaches
the loop test nothing fatal happened; if it leaves by `goto _error`, the
trace ends with the failed operation and `ret` holds its result. -/
theorem loopBody_shape (K : RclCodes) (w : World) (n : Nat) :
    (∀ e ∈ (loopBody K w n).1, Ev.inLoop e = true) ∧
    ((loopBody K w n).2.1 = Flow.next → Clean K (loopBody K w n).1) ∧
    ((loopBody K w n).2.1 = Flow.goto_error →
      FailShape K (loopBody K w n).1 (loopBody K w n).2.2) := by
  by_cases h1 : w.wait_set_clear n = K.RCL_RET_OK
  · by_cases h2 : w.wait_set_add_timer n = K.RCL_RET_OK
    · by_cases h3 : w.wait n = K.RCL_RET_TIMEOUT
      · rw [loopBody_timeout K w n h1 h2 h3]
        refine ⟨?_, ?_, ?_⟩
        · intro e he
          simp only [List.mem_cons, List.mem_singleton, List.not_mem_nil, or_false] at he
          rcases he with h | h | h | h <;> rw [h] <;> rfl
        · intro _
          have := iterationHead_clean K w n h1 h2 (Or.inr h3)
          exact Clean.append (a := iterationHead w n) this (Clean.cons rfl (Clean.nil K))
        · intro h; cases h
      · by_cases h4 : w.wait n = K.RCL_RET_OK
        · have hb := loopBody_wait_ok K w n h1 h2 h4
          obtain ⟨s1, s2, s3⟩ :=
            scan_shape K w n (scanCount (w.size_of_timers n)) 0 (w.wait n) false
          have hh := iterationHead_clean K w n h1 h2 (Or.inl h4)
          have hin : ∀ e ∈ iterationHead w n, Ev.inLoop e = true := by
            intro e he
            simp only [iterationHead, List.mem_cons, List.mem_singleton, List.not_mem_nil,
              or_false] at he
            rcases he with h | h | h <;> rw [h] <;> rfl
          cases hf : (scan K w n (scanCount (w.size_of_timers n)) 0 (w.wait n) false).2.1 with
          | next =>
            rw [hf] at hb
            simp only at hb
            rw [hb]
            refine ⟨?_, ?_, ?_⟩
            · intro e he
              rcases List.mem_append.mp he with h | h
              · rcases List.mem_append.mp h with h | h
                · exact hin e h
                · exact s1 e h
              · split at h
                · rw [List.mem_singleton.mp h]; rfl
                · cases h
            · intro _
              refine Clean.append (Clean.append hh (s2 hf).1) ?_
              split
              · exact Clean.cons rfl (Clean.nil K)
              · exact Clean.nil K
            · intro h; cases h
          | goto_error =>
            rw [hf] at hb
            simp only at hb
            rw [hb]
            refine ⟨?_, ?_, ?_⟩
            · intro e he
              rcases List.mem_append.mp he with h | h
              · exact hin e h
              · exact s1 e h
            · intro h; cases h
            · intro _
              exact failShape_prepend hh (s3 hf)
        · rw [loopBody_wait_failed K w n h1 h2 h3 h4]
          refine ⟨?_, ?_, ?_⟩
          · intro e he
            simp only [List.mem_cons, List.mem_singleton, List.not_mem_nil, or_false] at he
            rcases he with h | h | h | h <;> rw [h] <;> rfl
          · intro h; cases h
          · intro _
            refine ⟨[Ev.call Fn.rcl_wait_set_clear (w.wait_set_clear n),
              Ev.call Fn.rcl_wait_set_add_timer (w.wait_set_add_timer n)],
              Fn.rcl_wait, Msg.wait_failed, rfl, ?_, rfl, fatal_wait K _ h4 h3⟩
            exact Clean.cons (by rw [h1]; exact isFatal_call_ok K _)
              (Clean.cons (by rw [h2]; exact isFatal_call_ok K _) (Clean.nil K))
    · rw [loopBody_add_failed K w n h1 h2]
      refine ⟨?_, ?_, ?_⟩
      · intro e he
        simp only [List.mem_cons, List.mem_singleton, List.not_mem_nil, or_false] at he
        rcases he with h | h | h <;> rw [h] <;> rfl
      · intro h; cases h
      · intro _
        refine ⟨[Ev.call Fn.rcl_wait_set_clear (w.wait_set_clear n)],
          Fn.rcl_wait_set_add_timer, Msg.add_timer_failed, rfl, ?_, rfl,
          fatal_of_ne_ok K _ _ h2 (by decide)⟩
        exact Clean.cons (by rw [h1]; exact isFatal_call_ok K _) (Clean.nil K)
  · rw [loopBody_clear_failed K w n h1]
    refine ⟨?_, ?_, ?_⟩
    · intro e he
      simp only [List.mem_cons, List.mem_singleton, List.not_mem_nil, or_false] at he
      rcases he with h | h <;> rw [h] <;> rfl
    · intro h; cases h
    · intro _
      exact ⟨[], Fn.rcl_wait_set_clear, Msg.clear_failed, rfl, Clean.nil K, rfl,
        fatal_of_ne_ok K _ _ h1 (by decide)⟩

/-! ## The loop -/

theorem doWhile_succ_next (K : RclCodes) (w : World) (fuel n : Nat)
    (h : (loopBody K w n).2.1 = Flow.next) :
    doWhile K w false (fuel + 1) n =
      ((loopBody K w n).1 ++ (doWhile K w false fuel (n + 1)).1,
       (doWhile K w false fuel (n + 1)).2) := by
  simp [doWhile, h]

theorem doWhile_succ_error (K : RclCodes) (w : World) (ec : Bool) (fuel n : Nat)
    (h : (loopBody K w n).2.1 = Flow.goto_error) :
    doWhile K w ec (fuel + 1) n = ((loopBody K w n).1, some (loopBody K w n).2.2) := by
  simp [doWhile, h]

theorem doWhile_succ_stop (K : RclCodes) (w : World) (fuel n : Nat)
    (h : (loopBody K w n).2.1 = Flow.next) :
    doWhile K w true (fuel + 1) n = ((loopBody K w n).1, some (loopBody K w n).2.2) := by
  simp [doWhile, h]

/-- Every event of the loop's trace is a loop operation or a `printf`. -/
theorem doWhile_inLoop (K : RclCodes) (w : World) (ec : Bool) (fuel : Nat) :
    ∀ n, ∀ e ∈ (doWhile K w ec fuel n).1, Ev.inLoop e = true := by
  induction fuel with
  | zero => intro n e he; cases he
  | succ k ih =>
    intro n e he
    cases hf : (loopBody K w n).2.1 with
    | goto_error =>
      rw [doWhile_succ_error K w ec k n hf] at he
      exact (loopBody_shape K w n).1 e he
    | next =>
      cases ec with
      | true =>
        rw [doWhile_succ_stop K w k n hf] at he
        exact (loopBody_shape K w n).1 e he
      | false =>
        rw [doWhile_succ_next K w k n hf] at he
        rcases List.mem_append.mp he with h | h
        · exact (loopBody_shape K w n).1 e h
        · exact ih (n + 1) e h

/-- With `exit_cond` false: while the loop runs nothing fatal has happened,
and when control is at `_error` the trace ends with the failed operation,
whose result is in `ret`. -/
theorem doWhile_shape (K : RclCodes) (w : World) (fuel : Nat) :
    ∀ n, ((doWhile K w false fuel n).2 = none → Clean K (doWhile K w false fuel n).1) ∧
      (∀ r, (doWhile K w false fuel n).2 = some r →
        FailShape K (doWhile K w false fuel n).1 r) := by
  induction fuel with
  | zero =>
    intro n
    refine ⟨fun _ => Clean.nil K, ?_⟩
    intro r h; cases h
  | succ k ih =>
    intro n
    obtain ⟨_, b2, b3⟩ := loopBody_shape K w n
    cases hf : (loopBody K w n).2.1 with
    | goto_error =>
      rw [doWhile_succ_error K w false k n hf]
      refine ⟨fun h => (by cases h), ?_⟩
      intro r h
      have hr : (loopBody K w n).2.2 = r := Option.some.inj h
      rw [← hr]
      exact b3 hf
    | next =>
      rw [doWhile_succ_next K w k n hf]
      obtain ⟨i1, i2⟩ := ih (n + 1)
      exact ⟨fun h => (b2 hf).append (i1 h), fun r h => failShape_prepend (b2 hf) (i2 r h)⟩

/-- Control leaves the loop only when `exit_cond` is true or a loop operation
failed. -/
theorem doWhile_exit (K : RclCodes) (w : World) (ec : Bool) (fuel : Nat) :
    ∀ n r, (doWhile K w ec fuel n).2 = some r →
      ec = true ∨ FailShape K (doWhile K w ec fuel n).1 r := by
  cases ec with
  | true => intro n r _; exact Or.inl rfl
  | false => intro n r h; exact Or.inr ((doWhile_shape K w fuel n).2 r h)

/-- The scan calls no rcl function other than `rcl_timer_call`. -/
theorem scan_countCalls (K : RclCodes) (w : World) (n : Nat) (f : Fn)
    (hf : f ≠ Fn.rcl_timer_call) (todo : Nat) :
    ∀ (i : Nat) (ret : rcl_ret_t) (has : Bool),
      countCalls f (scan K w n todo i ret has).1 = 0 := by
  induction todo with
  | zero => intro i ret has; rfl
  | succ t ih =>
    intro i ret has
    by_cases ht : w.timers n i = true
    · by_cases hc : w.timer_call n i = K.RCL_RET_OK
      · have := ih (i + 1) (w.timer_call n i) true
        simp only [scan, ht, hc, ne_eq, not_true_eq_false, if_false, if_true]
        rw [hc] at this
        simpa [countCalls, List.countP_cons, Ev.isCallOf, Ne.symm hf] using this
      · simp [scan, ht, hc, countCalls, List.countP_cons, Ev.isCallOf, Ne.symm hf]
    · simp only [scan, ht]
      exact ih (i + 1) ret has

/-- When every fire returns `RCL_RET_OK` the scan falls through. -/
theorem scan_next_of_ok (K : RclCodes) (w : World) (n : Nat)
    (h : ∀ i, w.timer_call n i = K.RCL_RET_OK) (todo : Nat) :
    ∀ (i : Nat) (ret : rcl_ret_t) (has : Bool),
      (scan K w n todo i ret has).2.1 = Flow.next := by
  induction todo with
  | zero => intro i ret has; rfl
  | succ t ih =>
    intro i ret has
    by_cases ht : w.timers n i = true
    · simp only [scan, ht, h i, ne_eq, not_true_eq_false, if_false, if_true]
      exact ih (i + 1) _ true
    · simp only [scan, ht]
      exact ih (i + 1) ret has

theorem countCalls_append (f : Fn) (a b : List Ev) :
    countCalls f (a ++ b) = countCalls f a + countCalls f b := by
  simp [countCalls, List.countP_append]

/-- An iteration in which nothing fails reaches the loop test and calls
`rcl_wait` once. -/
theorem loopBody_of_ok (K : RclCodes) (w : World) (n : Nat) (h : IterationOk K w n) :
    (loopBody K w n).2.1 = Flow.next ∧ countCalls Fn.rcl_wait (loopBody K w n).1 = 1 := by
  obtain ⟨h1, h2, h3, h4⟩ := h
  by_cases ht : w.wait n = K.RCL_RET_TIMEOUT
  · rw [loopBody_timeout K w n h1 h2 ht]
    exact ⟨rfl, rfl⟩
  · have hok : w.wait n = K.RCL_RET_OK := by
      rcases h3 with h | h
      · exact h
      · exact absurd h ht
    have hb := loopBody_wait_ok K w n h1 h2 hok
    have hs := scan_next_of_ok K w n h4 (scanCount (w.size_of_timers n)) 0 (w.wait n) false
    rw [hs] at hb
    simp only at hb
    rw [hb]
    refine ⟨rfl, ?_⟩
    have hc := scan_countCalls K w n Fn.rcl_wait (by decide)
      (scanCount (w.size_of_timers n)) 0 (w.wait n) false
    simp only [countCalls_append, hc]
    have h5 : countCalls Fn.rcl_wait (iterationHead w n) = 1 := rfl
    rw [h5]
    split <;> rfl

/-- When no iteration fails the loop never leaves: after `fuel` iterations it
is still running and has called `rcl_wait` `fuel` times. -/
theorem doWhile_of_ok (K : RclCodes) (w : World) (h : ∀ n, IterationOk K w n) (fuel : Nat) :
    ∀ n, (doWhile K w false fuel n).2 = none ∧
      countCalls Fn.rcl_wait (doWhile K w false fuel n).1 = fuel := by
  induction fuel with
  | zero => intro n; exact ⟨rfl, rfl⟩
  | succ k ih =>
    intro n
    obtain ⟨b1, b2⟩ := loopBody_of_ok K w n (h n)
    rw [doWhile_succ_next K w k n b1]
    refine ⟨(ih (n + 1)).1, ?_⟩
    simp only [countCalls_append, b2, (ih (n + 1)).2]
    omega

/-- The first failing iteration ends the loop: if the iterations `n`, ...,
`n + k - 1` reach the loop test and iteration `n + k` leaves by
`goto _error`, then with more than `k` iterations of fuel control is at
`_error` with the `ret` of iteration `n + k`. -/
theorem doWhile_exits (K : RclCodes) (w : World) (k : Nat) :
    ∀ n fuel, (∀ m, n ≤ m → m < n + k → (loopBody K w m).2.1 = Flow.next) →
      (loopBody K w (n + k)).2.1 = Flow.goto_error → k < fuel →
      (doWhile K w false fuel n).2 = some (loopBody K w (n + k)).2.2 := by
  induction k with
  | zero =>
    intro n fuel _ he hf
    obtain ⟨f, rfl⟩ : ∃ f, fuel = f + 1 := ⟨fuel - 1, by omega⟩
    rw [doWhile_succ_error K w false f n he]
    rfl
  | succ j ih =>
    intro n fuel hn he hf
    obtain ⟨f, rfl⟩ : ∃ f, fuel = f + 1 := ⟨fuel - 1, by omega⟩
    rw [doWhile_succ_next K w f n (hn n (Nat.le_refl _) (by omega))]
    have h2 : n + (j + 1) = (n + 1) + j := by omega
    rw [h2] at he ⊢
    exact ih (n + 1) f (fun m h1 h2 => hn m (by omega) (by omega)) he (by omega)

/-! ## Teardown -/

/-- The teardown is the clock block, the timer block, the wait-set block and
the shutdown block, in this order. -/
theorem teardown_trace (K : RclCodes) (w : World) (ret : rcl_ret_t) (c t ws : Bool) :
    (teardown K w ret c t ws).1 =
      finiBlock K c Fn.rcl_clock_fini w.clock_fini Obj.clock ++
      (finiBlock K t Fn.rcl_timer_fini w.timer_fini Obj.timer ++
      (finiBlock K ws Fn.rcl_wait_set_fini w.wait_set_fini Obj.wait_set ++
      shutdownBlock K w.shutdown)) := by
  cases c <;> cases t <;> cases ws <;>
    simp [teardown, finiBlock, shutdownBlock, finiMsg]

/-- The value the teardown leaves in `ret` is the result of `rcl_shutdown`. -/
theorem teardown_ret (K : RclCodes) (w : World) (ret : rcl_ret_t) (c t ws : Bool) :
    (teardown K w ret c t ws).2 = w.shutdown := rfl

theorem finiBlock_inTeardown (K : RclCodes) (b : Bool) (f : Fn) (r : rcl_ret_t) (o : Obj)
    (hf : f.isFini = true) : ∀ e ∈ finiBlock K b f r o, Ev.inTeardown e = true := by
  intro e he
  unfold finiBlock at he
  cases b with
  | false => simp at he
  | true =>
    simp only [if_true, List.mem_append, List.mem_singleton] at he
    rcases he with (h | h) | h
    · rw [h]; simp [Ev.inTeardown, hf]
    · split at h
      · rw [List.mem_singleton.mp h]; rfl
      · cases h
    · rw [h]; rfl

theorem shutdownBlock_inTeardown (K : RclCodes) (r : rcl_ret_t) :
    ∀ e ∈ shutdownBlock K r, Ev.inTeardown e = true := by
  intro e he
  unfold shutdownBlock at he
  rcases List.mem_append.mp he with h | h
  · rw [List.mem_singleton.mp h]; rfl
  · split at h
    · rw [List.mem_singleton.mp h]; rfl
    · cases h

/-- Every event of the teardown is a finalization, the shutdown, a `delete`
or a `printf`. -/
theorem teardown_inTeardown (K : RclCodes) (w : World) (ret : rcl_ret_t) (c t ws : Bool) :
    ∀ e ∈ (teardown K w ret c t ws).1, Ev.inTeardown e = true := by
  intro e he
  rw [teardown_trace] at he
  rcases List.mem_append.mp he with h | h
  · exact finiBlock_inTeardown K c Fn.rcl_clock_fini _ _ rfl e h
  · rcases List.mem_append.mp h with h | h
    · exact finiBlock_inTeardown K t Fn.rcl_timer_fini _ _ rfl e h
    · rcases List.mem_append.mp h with h | h
      · exact finiBlock_inTeardown K ws Fn.rcl_wait_set_fini _ _ rfl e h
      · exact shutdownBlock_inTeardown K _ e h

theorem isOpCall_of_inTeardown (e : Ev) (h : Ev.inTeardown e = true) :
    Ev.isOpCall e = false := by
  cases e with
  | call f r => cases f <;> simp_all [Ev.inTeardown, Ev.isOpCall, Fn.isOp, Fn.isFini,
      Fn.isConstruction, Fn.isLoopOp]
  | alloc o => rfl
  | free o => rfl
  | printf m a => rfl

theorem isFatal_of_not_isOpCall (K : RclCodes) (e : Ev) (h : Ev.isOpCall e = false) :
    Ev.isFatal K e = false := by
  cases e with
  | call f r =>
    simp only [Ev.isOpCall] at h
    simp [Ev.isFatal, h]
  | alloc o => rfl
  | free o => rfl
  | printf m a => rfl

theorem countCalls_finiBlock (K : RclCodes) (b : Bool) (f g : Fn) (r : rcl_ret_t) (o : Obj) :
    countCalls g (finiBlock K b f r o) = if b = true ∧ f = g then 1 else 0 := by
  cases b with
  | false => simp [finiBlock, countCalls]
  | true =>
    by_cases hr : r = K.RCL_RET_OK <;> by_cases hg : f = g <;>
      simp [finiBlock, countCalls, List.countP_cons, Ev.isCallOf, hr, hg]

theorem countCalls_shutdownBlock (K : RclCodes) (g : Fn) (r : rcl_ret_t) :
    countCalls g (shutdownBlock K r) = if Fn.rcl_shutdown = g then 1 else 0 := by
  by_cases hr : r = K.RCL_RET_OK <;> by_cases hg : Fn.rcl_shutdown = g <;>
    simp [shutdownBlock, countCalls, List.countP_cons, Ev.isCallOf, hr, hg]

/-- The teardown calls `rcl_clock_fini`, `rcl_timer_fini`, `rcl_wait_set_fini`
once each when the pointer is non-null and not at all otherwise, and
`rcl_shutdown` once. -/
theorem countCalls_teardown (K : RclCodes) (w : World) (ret : rcl_ret_t) (c t ws : Bool) :
    countCalls Fn.rcl_clock_fini (teardown K w ret c t ws).1 = (if c then 1 else 0) ∧
    countCalls Fn.rcl_timer_fini (teardown K w ret c t ws).1 = (if t then 1 else 0) ∧
    countCalls Fn.rcl_wait_set_fini (teardown K w ret c t ws).1 = (if ws then 1 else 0) ∧
    countCalls Fn.rcl_shutdown (teardown K w ret c t ws).1 = 1 := by
  rw [teardown_trace]
  simp only [countCalls_append, countCalls_finiBlock, countCalls_shutdownBlock]
  cases c <;> cases t <;> cases ws <;> simp

/-! ## Construction and the whole of `main` -/

theorem mainFrom_clock_init_failed (K : RclCodes) (w : World) (ec : Bool) (fuel : Nat)
    (h : w.clock_init ≠ K.RCL_RET_OK) :
    mainFrom K w ec fuel =
      ([Ev.alloc Obj.clock, Ev.call Fn.rcl_clock_init w.clock_init,
        Ev.printf Msg.clock_init_failed [w.clock_init]] ++
        (teardown K w w.clock_init true false false).1, some w.shutdown) := by
  simp only [mainFrom, construct, h, ne_eq, not_false_eq_true, if_true]
  rfl

theorem mainFrom_timer_init_failed (K : RclCodes) (w : World) (ec : Bool) (fuel : Nat)
    (h1 : w.clock_init = K.RCL_RET_OK) (h2 : w.timer_init ≠ K.RCL_RET_OK) :
    mainFrom K w ec fuel =
      ([Ev.alloc Obj.clock, Ev.call Fn.rcl_clock_init w.clock_init,
        Ev.alloc Obj.timer, Ev.call Fn.rcl_timer_init w.timer_init,
        Ev.printf Msg.timer_init_failed [w.timer_init]] ++
        (teardown K w w.timer_init true true false).1, some w.shutdown) := by
  simp only [mainFrom, construct, h1, h2, ne_eq, not_false_eq_true, not_true_eq_false,
    if_true, if_false]
  rfl

theorem mainFrom_wait_set_init_failed (K : RclCodes) (w : World) (ec : Bool) (fuel : Nat)
    (h1 : w.clock_init = K.RCL_RET_OK) (h2 : w.timer_init = K.RCL_RET_OK)
    (h3 : w.wait_set_init ≠ K.RCL_RET_OK) :
    mainFrom K w ec fuel =
      ([Ev.alloc Obj.clock, Ev.call Fn.rcl_clock_init w.clock_init,
        Ev.alloc Obj.timer, Ev.call Fn.rcl_timer_init w.timer_init,
        Ev.alloc Obj.wait_set, Ev.call Fn.rcl_wait_set_init w.wait_set_init,
        Ev.printf Msg.wait_set_init_failed [w.wait_set_init]] ++
        (teardown K w w.wait_set_init true true true).1, some w.shutdown) := by
  simp only [mainFrom, construct, h1, h2, h3, ne_eq, not_false_eq_true, not_true_eq_false,
    if_true, if_false]
  rfl

theorem mainFrom_constructed (K : RclCodes) (w : World) (ec : Bool) (fuel : Nat)
    (h1 : w.clock_init = K.RCL_RET_OK) (h2 : w.timer_init = K.RCL_RET_OK)
    (h3 : w.wait_set_init = K.RCL_RET_OK) :
    mainFrom K w ec fuel =
      match (doWhile K w ec fuel 0).2 with
      | none => (constructTrace w ++ (doWhile K w ec fuel 0).1, none)
      | some r =>
        (constructTrace w ++ (doWhile K w ec fuel 0).1 ++
          (teardown K w r true true true).1, some w.shutdown) := by
  simp only [mainFrom, construct, h1, h2, h3, ne_eq, not_true_eq_false, if_false,
    constructTrace]
  cases (doWhile K w ec fuel 0).2 <;> rfl

theorem main_boot (K : RclCodes) (w : World) (fuel : Nat)
    (h1 : w.init_options_init = K.RCL_RET_OK) (h2 : w.init = K.RCL_RET_OK) :
    main K w fuel = (bootTrace w ++ (mainFrom K w false fuel).1, (mainFrom K w false fuel).2) := by
  simp only [main, h1, h2, ne_eq, not_true_eq_false, if_false, bootTrace]

theorem main_init_options_failed (K : RclCodes) (w : World) (fuel : Nat)
    (h1 : w.init_options_init ≠ K.RCL_RET_OK) :
    main K w fuel =
      ([Ev.call Fn.rcl_init_options_init w.init_options_init,
        Ev.printf Msg.init_options_failed [w.init_options_init]],
       some w.init_options_init) := by
  simp only [main, h1, ne_eq, not_false_eq_true, if_true]

theorem main_init_failed (K : RclCodes) (w : World) (fuel : Nat)
    (h1 : w.init_options_init = K.RCL_RET_OK) (h2 : w.init ≠ K.RCL_RET_OK) :
    main K w fuel =
      ([Ev.call Fn.rcl_init_options_init w.init_options_init,
        Ev.call Fn.rcl_init w.init,
        Ev.printf Msg.rcl_init_failed [w.init]],
       some w.init) := by
  simp only [main, h1, h2, ne_eq, not_false_eq_true, not_true_eq_false, if_true, if_false]

theorem runShape_prepend {K : RclCodes} {w : World} {a tr : List Ev}
    (ha : Clean K a) (hl : ∀ g s, Ev.call g s ∈ a → g.isLoopOp = false)
    (h : RunShape K w tr) : RunShape K w (a ++ tr) := by
  obtain ⟨pre, f, r, m, htr, hpre, hf, hfat, hc⟩ := h
  refine ⟨a ++ pre, f, r, m, by rw [htr, List.append_assoc], ha.append hpre, hf, hfat, ?_⟩
  intro hcon g s hg
  rcases List.mem_append.mp hg with h | h
  · exact hl g s h
  · exact hc hcon g s h

theorem constructTrace_clean (K : RclCodes) (w : World)
    (h1 : w.clock_init = K.RCL_RET_OK) (h2 : w.timer_init = K.RCL_RET_OK)
    (h3 : w.wait_set_init = K.RCL_RET_OK) : Clean K (constructTrace w) := by
  unfold constructTrace
  exact Clean.cons rfl (Clean.cons (by rw [h1]; exact isFatal_call_ok K _)
    (Clean.cons rfl (Clean.cons (by rw [h2]; exact isFatal_call_ok K _)
    (Clean.cons rfl (Clean.cons (by rw [h3]; exact isFatal_call_ok K _) (Clean.nil K))))))

/-- With `exit_cond` false, after the bootstrap: while the loop runs nothing
fatal has happened; once `main` has returned, the trace has the shape
`RunShape` and the value returned is the result of `rcl_shutdown`. -/
theorem mainFrom_shape (K : RclCodes) (w : World) (fuel : Nat) :
    ((mainFrom K w false fuel).2 = none → Clean K (mainFrom K w false fuel).1) ∧
    (∀ r, (mainFrom K w false fuel).2 = some r →
      r = w.shutdown ∧ RunShape K w (mainFrom K w false fuel).1) := by
  by_cases h1 : w.clock_init = K.RCL_RET_OK
  · by_cases h2 : w.timer_init = K.RCL_RET_OK
    · by_cases h3 : w.wait_set_init = K.RCL_RET_OK
      · have hm := mainFrom_constructed K w false fuel h1 h2 h3
        obtain ⟨d1, d2⟩ := doWhile_shape K w fuel 0
        have hc := constructTrace_clean K w h1 h2 h3
        cases hd : (doWhile K w false fuel 0).2 with
        | none =>
          rw [hd] at hm
          simp only at hm
          rw [hm]
          exact ⟨fun _ => hc.append (d1 hd), fun r h => by cases h⟩
        | some r0 =>
          rw [hd] at hm
          simp only at hm
          rw [hm]
          refine ⟨fun h => (by cases h), ?_⟩
          intro r hr
          refine ⟨(Option.some.inj hr).symm, ?_⟩
          obtain ⟨pre, f, m, htr, hpre, hf, hfat⟩ := d2 r0 hd
          refine ⟨constructTrace w ++ pre, f, r0, m, ?_, hc.append hpre, ?_, hfat, ?_⟩
          · rw [htr]
            have e1 : timerAllocated f = true := by
              cases f <;> simp_all [timerAllocated, Fn.isLoopOp]
            have e2 : waitSetAllocated f = true := by
              cases f <;> simp_all [waitSetAllocated, Fn.isLoopOp]
            rw [e1, e2]
            simp [List.append_assoc]
          · simp [Fn.isOp, hf]
          · intro hcon
            cases f <;> simp_all [Fn.isLoopOp, Fn.isConstruction]
      · rw [mainFrom_wait_set_init_failed K w false fuel h1 h2 h3]
        refine ⟨fun h => (by cases h), ?_⟩
        intro r hr
        refine ⟨(Option.some.inj hr).symm, ?_⟩
        refine ⟨[Ev.alloc Obj.clock, Ev.call Fn.rcl_clock_init w.clock_init,
          Ev.alloc Obj.timer, Ev.call Fn.rcl_timer_init w.timer_init, Ev.alloc Obj.wait_set],
          Fn.rcl_wait_set_init, w.wait_set_init, Msg.wait_set_init_failed, rfl, ?_, rfl,
          fatal_of_ne_ok K _ _ h3 (by decide), ?_⟩
        · exact Clean.cons rfl (Clean.cons (by rw [h1]; exact isFatal_call_ok K _)
            (Clean.cons rfl (Clean.cons (by rw [h2]; exact isFatal_call_ok K _)
            (Clean.cons rfl (Clean.nil K)))))
        · intro _ g s hg
          simp only [List.mem_cons, List.mem_singleton, List.not_mem_nil, or_false] at hg
          rcases hg with h | h | h | h | h <;> cases h <;> rfl
    · rw [mainFrom_timer_init_failed K w false fuel h1 h2]
      refine ⟨fun h => (by cases h), ?_⟩
      intro r hr
      refine ⟨(Option.some.inj hr).symm, ?_⟩
      refine ⟨[Ev.alloc Obj.clock, Ev.call Fn.rcl_clock_init w.clock_init,
        Ev.alloc Obj.timer], Fn.rcl_timer_init, w.timer_init, Msg.timer_init_failed, rfl, ?_,
        rfl, fatal_of_ne_ok K _ _ h2 (by decide), ?_⟩
      · exact Clean.cons rfl (Clean.cons (by rw [h1]; exact isFatal_call_ok K _)
          (Clean.cons rfl (Clean.nil K)))
      · intro _ g s hg
        simp only [List.mem_cons, List.mem_singleton, List.not_mem_nil, or_false] at hg
        rcases hg with h | h | h
        · cases h
        · cases h; rfl
        · cases h
  · rw [mainFrom_clock_init_failed K w false fuel h1]
    refine ⟨fun h => (by cases h), ?_⟩
    intro r hr
    refine ⟨(Option.some.inj hr).symm, ?_⟩
    refine ⟨[Ev.alloc Obj.clock], Fn.rcl_clock_init, w.clock_init, Msg.clock_init_failed,
      rfl, ?_, rfl, fatal_of_ne_ok K _ _ h1 (by decide), ?_⟩
    · exact Clean.cons rfl (Clean.nil K)
    · intro _ g s hg
      simp only [List.mem_cons, List.mem_singleton, List.not_mem_nil, or_false] at hg
      cases hg

/-- A list with exactly one marked element splits around it in one way. -/
theorem split_unique {α : Type} (P : α → Bool) :
    ∀ (A : List α) (x : α) (B pre : List α) (y : α) (post : List α),
      A ++ x :: B = pre ++ y :: post →
      (∀ a ∈ A, P a = false) → (∀ b ∈ B, P b = false) → P x = true → P y = true →
      pre = A ∧ y = x ∧ post = B := by
  intro A
  induction A with
  | nil =>
    intro x B pre y post h _ hB hx hy
    cases pre with
    | nil =>
      simp only [List.nil_append, List.cons.injEq] at h
      exact ⟨rfl, h.1.symm, h.2.symm⟩
    | cons p ps =>
      simp only [List.nil_append, List.cons_append, List.cons.injEq] at h
      have hmem : y ∈ B := by rw [h.2]; simp
      have := hB y hmem
      rw [this] at hy
      cases hy
  | cons a as ih =>
    intro x B pre y post h hA hB hx hy
    cases pre with
    | nil =>
      simp only [List.nil_append, List.cons_append, List.cons.injEq] at h
      have := hA a (List.mem_cons_self _ _)
      rw [h.1, hy] at this
      cases this
    | cons p ps =>
      simp only [List.cons_append, List.cons.injEq] at h
      obtain ⟨e1, e2, e3⟩ := ih x B ps y post h.2
        (fun a' ha' => hA a' (List.mem_cons_of_mem _ ha')) hB hx hy
      exact ⟨by rw [e1, h.1], e2, e3⟩

theorem bootTrace_clean (K : RclCodes) (w : World) : Clean K (bootTrace w) := by
  intro e he
  simp only [bootTrace, List.mem_cons, List.mem_singleton, List.not_mem_nil, or_false] at he
  rcases he with h | h <;> rw [h] <;> rfl

/-- Once the bootstrap has succeeded: while the loop runs nothing fatal has
happened; once `main` has returned, it returned the result of `rcl_shutdown`
and its trace has the shape `RunShape`. -/
theorem main_shape (K : RclCodes) (w : World) (fuel : Nat)
    (h1 : w.init_options_init = K.RCL_RET_OK) (h2 : w.init = K.RCL_RET_OK) :
    ((main K w fuel).2 = none → Clean K (main K w fuel).1) ∧
    (∀ r, (main K w fuel).2 = some r → r = w.shutdown ∧ RunShape K w (main K w fuel).1) := by
  rw [main_boot K w fuel h1 h2]
  obtain ⟨m1, m2⟩ := mainFrom_shape K w fuel
  refine ⟨fun h => (bootTrace_clean K w).append (m1 h), ?_⟩
  intro r hr
  refine ⟨(m2 r hr).1, runShape_prepend (bootTrace_clean K w) ?_ (m2 r hr).2⟩
  intro g s hg
  simp only [bootTrace, List.mem_cons, List.mem_singleton, List.not_mem_nil, or_false] at hg
  rcases hg with h | h <;> cases h <;> rfl

/-- The trace of `main` holds a fatal result only after a successful
bootstrap and only once `main` has returned. -/
theorem main_of_fatal (K : RclCodes) (w : World) (fuel : Nat) (e : Ev)
    (he : e ∈ (main K w fuel).1) (hf : Ev.isFatal K e = true) :
    w.init_options_init = K.RCL_RET_OK ∧ w.init = K.RCL_RET_OK ∧
    (main K w fuel).2 = some w.shutdown := by
  by_cases h1 : w.init_options_init = K.RCL_RET_OK
  · by_cases h2 : w.init = K.RCL_RET_OK
    · refine ⟨h1, h2, ?_⟩
      obtain ⟨m1, m2⟩ := main_shape K w fuel h1 h2
      cases hm : (main K w fuel).2 with
      | none =>
        have := m1 hm e he
        rw [this] at hf
        cases hf
      | some r => rw [(m2 r hm).1]
    · rw [main_init_failed K w fuel h1 h2] at he
      simp only [List.mem_cons, List.mem_singleton, List.not_mem_nil, or_false] at he
      rcases he with h | h | h <;> rw [h] at hf <;> cases hf
  · rw [main_init_options_failed K w fuel h1] at he
    simp only [List.mem_cons, List.mem_singleton, List.not_mem_nil, or_false] at he
    rcases he with h | h <;> rw [h] at hf <;> cases hf

theorem teardown_clean (K : RclCodes) (w : World) (ret : rcl_ret_t) (c t ws : Bool) :
    ∀ e ∈ (teardown K w ret c t ws).1, Ev.isFatal K e = false := by
  intro e he
  exact isFatal_of_not_isOpCall K e
    (isOpCall_of_inTeardown e (teardown_inTeardown K w ret c t ws e he))

/-- Once `main` is past the bootstrap, it returns as soon as a construction
fails, and it returns after the first iteration that leaves by
`goto _error` when the fuel reaches that iteration. -/
theorem main_returns (K : RclCodes) (w : World) (fuel : Nat)
    (h1 : w.init_options_init = K.RCL_RET_OK) (h2 : w.init = K.RCL_RET_OK)
    (h : w.clock_init ≠ K.RCL_RET_OK ∨ w.timer_init ≠ K.RCL_RET_OK ∨
      w.wait_set_init ≠ K.RCL_RET_OK ∨
      ∃ k, k < fuel ∧ (∀ m, m < k → (loopBody K w m).2.1 = Flow.next) ∧
        (loopBody K w k).2.1 = Flow.goto_error) :
    (main K w fuel).2 = some w.shutdown := by
  rw [main_boot K w fuel h1 h2]
  by_cases c1 : w.clock_init = K.RCL_RET_OK
  · by_cases c2 : w.timer_init = K.RCL_RET_OK
    · by_cases c3 : w.wait_set_init = K.RCL_RET_OK
      · rcases h with h | h | h | ⟨k, hk, hn, he⟩
        · exact absurd c1 h
        · exact absurd c2 h
        · exact absurd c3 h
        · have hd := doWhile_exits K w k 0 fuel (fun m _ hm => hn m (by omega))
            (by rw [Nat.zero_add]; exact he) hk
          rw [mainFrom_constructed K w false fuel c1 c2 c3, hd]
      · rw [mainFrom_wait_set_init_failed K w false fuel c1 c2 c3]
    · rw [mainFrom_timer_init_failed K w false fuel c1 c2]
  · rw [mainFrom_clock_init_failed K w false fuel c1]

/-- The teardown ends with the call of `rcl_shutdown` and its `printf`, and
calls `rcl_shutdown` nowhere before. -/
theorem teardown_ends_with_shutdown (K : RclCodes) (w : World) (ret : rcl_ret_t)
    (c t ws : Bool) :
    ∃ pre, (teardown K w ret c t ws).1 = pre ++ shutdownBlock K w.shutdown ∧
      countCalls Fn.rcl_shutdown pre = 0 ∧ ∀ e ∈ pre, Ev.inTeardown e = true := by
  refine ⟨finiBlock K c Fn.rcl_clock_fini w.clock_fini Obj.clock ++
      (finiBlock K t Fn.rcl_timer_fini w.timer_fini Obj.timer ++
      finiBlock K ws Fn.rcl_wait_set_fini w.wait_set_fini Obj.wait_set), ?_, ?_, ?_⟩
  · rw [teardown_trace]; simp [List.append_assoc]
  · simp [countCalls_append, countCalls_finiBlock]
  · intro e he
    rcases List.mem_append.mp he with h | h
    · exact finiBlock_inTeardown K c Fn.rcl_clock_fini _ _ rfl e h
    · rcases List.mem_append.mp h with h | h
      · exact finiBlock_inTeardown K t Fn.rcl_timer_fini _ _ rfl e h
      · exact finiBlock_inTeardown K ws Fn.rcl_wait_set_fini _ _ rfl e h

theorem countCalls_zero_of_clean_ops (f : Fn) (tr : List Ev)
    (h : ∀ g s, Ev.call g s ∈ tr → g ≠ f) : countCalls f tr = 0 := by
  unfold countCalls
  rw [List.countP_eq_zero]
  intro e he
  cases e with
  | call g s =>
    have := h g s he
    simp [Ev.isCallOf, this]
  | alloc o => simp [Ev.isCallOf]
  | free o => simp [Ev.isCallOf]
  | printf m a => simp [Ev.isCallOf]

theorem okWorld_iterationOk (n : Nat) : IterationOk rclCodes okWorld n :=
  ⟨rfl, rfl, Or.inl rfl, fun _ => rfl⟩

/-! ## What is allocated and what is finalized -/

theorem count_free_finiBlock (K : RclCodes) (b : Bool) (f : Fn) (r : rcl_ret_t) (o p : Obj) :
    (finiBlock K b f r o).count (Ev.free p) = if b = true ∧ o = p then 1 else 0 := by
  cases b with
  | false => simp [finiBlock]
  | true =>
    by_cases hr : r = K.RCL_RET_OK <;> by_cases hp : o = p <;>
      simp [finiBlock, List.count_cons, hr, hp]

theorem count_free_shutdownBlock (K : RclCodes) (r : rcl_ret_t) (p : Obj) :
    (shutdownBlock K r).count (Ev.free p) = 0 := by
  by_cases hr : r = K.RCL_RET_OK <;> simp [shutdownBlock, List.count_cons, hr]

/-- The teardown deletes each object once when its pointer is non-null and
not at all otherwise. -/
theorem count_free_teardown (K : RclCodes) (w : World) (ret : rcl_ret_t) (c t ws : Bool) :
    (teardown K w ret c t ws).1.count (Ev.free Obj.clock) = (if c then 1 else 0) ∧
    (teardown K w ret c t ws).1.count (Ev.free Obj.timer) = (if t then 1 else 0) ∧
    (teardown K w ret c t ws).1.count (Ev.free Obj.wait_set) = (if ws then 1 else 0) := by
  rw [teardown_trace]
  simp only [List.count_append, count_free_finiBlock, count_free_shutdownBlock]
  cases c <;> cases t <;> cases ws <;> simp

theorem count_alloc_teardown (K : RclCodes) (w : World) (ret : rcl_ret_t) (c t ws : Bool)
    (o : Obj) : (teardown K w ret c t ws).1.count (Ev.alloc o) = 0 := by
  rw [List.count_eq_zero]
  intro h
  have := teardown_inTeardown K w ret c t ws _ h
  cases this

theorem count_zero_of_beforeTeardown (tr : List Ev)
    (h : ∀ e ∈ tr, Ev.beforeTeardown e = true) :
    (∀ f, (f.isFini || decide (f = Fn.rcl_shutdown)) = true → countCalls f tr = 0) ∧
    (∀ o, tr.count (Ev.free o) = 0) := by
  constructor
  · intro f hf
    apply countCalls_zero_of_clean_ops
    intro g s hg hgf
    have := h _ hg
    rw [hgf] at this
    simp only [Ev.beforeTeardown, hf] at this
    cases this
  · intro o
    rw [List.count_eq_zero]
    intro ho
    have := h _ ho
    cases this

theorem beforeTeardown_of_inLoop (e : Ev) (h : Ev.inLoop e = true) :
    Ev.beforeTeardown e = true := by
  cases e with
  | call f r => cases f <;> simp_all [Ev.inLoop, Ev.beforeTeardown, Fn.isLoopOp, Fn.isFini]
  | alloc o => rfl
  | free o => cases h
  | printf m a => rfl

theorem count_alloc_of_inLoop (tr : List Ev) (h : ∀ e ∈ tr, Ev.inLoop e = true) (o : Obj) :
    tr.count (Ev.alloc o) = 0 := by
  rw [List.count_eq_zero]
  intro ho
  have := h _ ho
  cases this

/-- A run of `main` that got past the bootstrap and has returned: its trace is
a part `pre` without teardown events, followed by the teardown in which the
clock pointer is non-null, the timer pointer is non-null exactly when the
clock init succeeded, and the wait-set pointer exactly when the clock init
and the timer init succeeded; `pre` holds the matching `new`s. -/
theorem main_census (K : RclCodes) (w : World) (fuel : Nat) (r : rcl_ret_t)
    (h1 : w.init_options_init = K.RCL_RET_OK) (h2 : w.init = K.RCL_RET_OK)
    (hr : (main K w fuel).2 = some r) :
    ∃ pre r0, (main K w fuel).1 = pre ++
        (teardown K w r0 true (decide (w.clock_init = K.RCL_RET_OK))
          (decide (w.clock_init = K.RCL_RET_OK ∧ w.timer_init = K.RCL_RET_OK))).1 ∧
      (∀ e ∈ pre, Ev.beforeTeardown e = true) ∧
      pre.count (Ev.alloc Obj.clock) = 1 ∧
      pre.count (Ev.alloc Obj.timer) = (if w.clock_init = K.RCL_RET_OK then 1 else 0) ∧
      pre.count (Ev.alloc Obj.wait_set) =
        (if w.clock_init = K.RCL_RET_OK ∧ w.timer_init = K.RCL_RET_OK then 1 else 0) := by
  rw [main_boot K w fuel h1 h2] at hr ⊢
  simp only at hr ⊢
  have hboot : ∀ e ∈ bootTrace w, Ev.beforeTeardown e = true := by
    intro e he
    simp only [bootTrace, List.mem_cons, List.mem_singleton, List.not_mem_nil, or_false] at he
    rcases he with h | h <;> rw [h] <;> rfl
  by_cases c1 : w.clock_init = K.RCL_RET_OK
  · by_cases c2 : w.timer_init = K.RCL_RET_OK
    · by_cases c3 : w.wait_set_init = K.RCL_RET_OK
      · have hm := mainFrom_constructed K w false fuel c1 c2 c3
        cases hd : (doWhile K w false fuel 0).2 with
        | none =>
          rw [hd] at hm
          simp only at hm
          rw [hm] at hr
          cases hr
        | some r1 =>
          rw [hd] at hm
          simp only at hm
          rw [hm]
          have hin := doWhile_inLoop K w false fuel 0
          refine ⟨bootTrace w ++ (constructTrace w ++ (doWhile K w false fuel 0).1), r1,
            ?_, ?_, ?_, ?_, ?_⟩
          · simp [c1, c2, List.append_assoc]
          · intro e he
            rcases List.mem_append.mp he with h | h
            · exact hboot e h
            · rcases List.mem_append.mp h with h | h
              · simp only [constructTrace, List.mem_cons, List.mem_singleton,
                  List.not_mem_nil, or_false] at h
                rcases h with h | h | h | h | h | h <;> rw [h] <;> rfl
              · exact beforeTeardown_of_inLoop e (hin e h)
          · simp only [List.count_append, count_alloc_of_inLoop _ hin]
            rfl
          · simp only [List.count_append, count_alloc_of_inLoop _ hin, c1, if_true]
            rfl
          · simp only [List.count_append, count_alloc_of_inLoop _ hin, c1, c2, and_self,
              if_true]
            rfl
      · rw [mainFrom_wait_set_init_failed K w false fuel c1 c2 c3]
        refine ⟨bootTrace w ++ [Ev.alloc Obj.clock, Ev.call Fn.rcl_clock_init w.clock_init,
          Ev.alloc Obj.timer, Ev.call Fn.rcl_timer_init w.timer_init,
          Ev.alloc Obj.wait_set, Ev.call Fn.rcl_wait_set_init w.wait_set_init,
          Ev.printf Msg.wait_set_init_failed [w.wait_set_init]], w.wait_set_init,
          ?_, ?_, ?_, ?_, ?_⟩
        · simp [c1, c2, List.append_assoc]
        · intro e he
          rcases List.mem_append.mp he with h | h
          · exact hboot e h
          · simp only [List.mem_cons, List.mem_singleton, List.not_mem_nil, or_false] at h
            rcases h with h | h | h | h | h | h | h <;> rw [h] <;> rfl
        · rfl
        · simp only [c1, if_true]; rfl
        · simp only [c1, c2, and_self, if_true]; rfl
    · rw [mainFrom_timer_init_failed K w false fuel c1 c2]
      refine ⟨bootTrace w ++ [Ev.alloc Obj.clock, Ev.call Fn.rcl_clock_init w.clock_init,
        Ev.alloc Obj.timer, Ev.call Fn.rcl_timer_init w.timer_init,
        Ev.printf Msg.timer_init_failed [w.timer_init]], w.timer_init, ?_, ?_, ?_, ?_, ?_⟩
      · simp [c1, c2, List.append_assoc]
      · intro e he
        rcases List.mem_append.mp he with h | h
        · exact hboot e h
        · simp only [List.mem_cons, List.mem_singleton, List.not_mem_nil, or_false] at h
          rcases h with h | h | h | h | h <;> rw [h] <;> rfl
      · rfl
      · simp only [c1, if_true]; rfl
      · simp only [c1, c2, and_false, if_false]; rfl
  · rw [mainFrom_clock_init_failed K w false fuel c1]
    refine ⟨bootTrace w ++ [Ev.alloc Obj.clock, Ev.call Fn.rcl_clock_init w.clock_init,
      Ev.printf Msg.clock_init_failed [w.clock_init]], w.clock_init, ?_, ?_, ?_, ?_, ?_⟩
    · simp [c1, List.append_assoc]
    · intro e he
      rcases List.mem_append.mp he with h | h
      · exact hboot e h
      · simp only [List.mem_cons, List.mem_singleton, List.not_mem_nil, or_false] at h
        rcases h with h | h | h <;> rw [h] <;> rfl
    · rfl
    · simp only [c1, if_false]; rfl
    · simp only [c1, false_and, if_false]; rfl

theorem printf_mem_finiBlock (K : RclCodes) (f : Fn) (r : rcl_ret_t) (o : Obj)
    (h : r ≠ K.RCL_RET_OK) :
    [Ev.call f r, Ev.printf (finiMsg f) [r]] <:+: finiBlock K true f r o := by
  refine ⟨[], [Ev.free o], ?_⟩
  simp [finiBlock, h]

theorem infix_append_left {α : Type} {a b : List α} (c : List α) (h : a <:+: b) :
    a <:+: b ++ c := by
  obtain ⟨s, t, e⟩ := h
  exact ⟨s, t ++ c, by rw [← e]; simp [List.append_assoc]⟩

theorem infix_append_right {α : Type} {a b : List α} (c : List α) (h : a <:+: b) :
    a <:+: c ++ b := by
  obtain ⟨s, t, e⟩ := h
  exact ⟨c ++ s, t, by rw [← e]; simp [List.append_assoc]⟩

/-! ## The scan of the ready members -/

theorem mem_readyFrom (w : World) (n i todo j : Nat) :
    j ∈ readyFrom w n i todo ↔ (i ≤ j ∧ j < i + todo) ∧ w.timers n j = true := by
  simp [readyFrom, List.mem_filter, List.mem_range'_1]

/-- Every iteration begins with the call of `rcl_wait_set_clear`. -/
theorem loopBody_head (K : RclCodes) (w : World) (n : Nat) :
    ∃ tl, (loopBody K w n).1 = Ev.call Fn.rcl_wait_set_clear (w.wait_set_clear n) :: tl := by
  by_cases h1 : w.wait_set_clear n = K.RCL_RET_OK
  · by_cases h2 : w.wait_set_add_timer n = K.RCL_RET_OK
    · by_cases h3 : w.wait n = K.RCL_RET_TIMEOUT
      · rw [loopBody_timeout K w n h1 h2 h3]; exact ⟨_, rfl⟩
      · by_cases h4 : w.wait n = K.RCL_RET_OK
        · rw [loopBody_wait_ok K w n h1 h2 h4]
          cases (scan K w n (scanCount (w.size_of_timers n)) 0 (w.wait n) false).2.1 with
          | next => exact ⟨_, rfl⟩
          | goto_error => exact ⟨_, rfl⟩
        · rw [loopBody_wait_failed K w n h1 h2 h3 h4]; exact ⟨_, rfl⟩
    · rw [loopBody_add_failed K w n h1 h2]; exact ⟨_, rfl⟩
  · rw [loopBody_clear_failed K w n h1]; exact ⟨_, rfl⟩

/-- A loop that has fuel for one more iteration begins it with the call of
`rcl_wait_set_clear`. -/
theorem doWhile_head (K : RclCodes) (w : World) (ec : Bool) (fuel n : Nat) :
    ∃ tl, (doWhile K w ec (fuel + 1) n).1 =
      Ev.call Fn.rcl_wait_set_clear (w.wait_set_clear n) :: tl := by
  obtain ⟨tl, htl⟩ := loopBody_head K w n
  cases hf : (loopBody K w n).2.1 with
  | goto_error =>
    rw [doWhile_succ_error K w ec fuel n hf]
    exact ⟨tl, htl⟩
  | next =>
    cases ec with
    | true =>
      rw [doWhile_succ_stop K w fuel n hf]
      exact ⟨tl, htl⟩
    | false =>
      rw [doWhile_succ_next K w fuel n hf]
      exact ⟨tl ++ (doWhile K w false fuel (n + 1)).1, by simp [htl]⟩

/-- After an iteration that reaches the loop test, the loop goes on with the
next iteration, which begins with the call of `rcl_wait_set_clear`. -/
theorem doWhile_continues (K : RclCodes) (w : World) (n : Nat)
    (h : (loopBody K w n).2.1 = Flow.next) (fuel : Nat) :
    doWhile K w false (fuel + 1) n =
      ((loopBody K w n).1 ++ (doWhile K w false fuel (n + 1)).1,
       (doWhile K w false fuel (n + 1)).2) ∧
    ∃ tl, (doWhile K w false (fuel + 2) n).1 =
      (loopBody K w n).1 ++ Ev.call Fn.rcl_wait_set_clear (w.wait_set_clear (n + 1)) :: tl := by
  refine ⟨doWhile_succ_next K w fuel n h, ?_⟩
  obtain ⟨tl, htl⟩ := doWhile_head K w false fuel (n + 1)
  exact ⟨tl, by rw [doWhile_succ_next K w (fuel + 1) n h, htl]⟩

/-- C1.  In the run where `rcl_clock_init` returns the fatal code 1 and every
other call returns `RCL_RET_OK`, `main` returns 0, the result of
`rcl_shutdown`, and not 1: the teardown assigns `ret` again before
`return ret`. -/
theorem exit_status_is_not_first_error (fuel : Nat) :
    Ev.call Fn.rcl_clock_init 1 ∈ (main rclCodes clockInitFails fuel).1 ∧
    fatal rclCodes Fn.rcl_clock_init 1 = true ∧
    (main rclCodes clockInitFails fuel).2 = some 0 := by
  have h : main rclCodes clockInitFails fuel =
      ([Ev.call Fn.rcl_init_options_init 0, Ev.call Fn.rcl_init 0,
        Ev.alloc Obj.clock, Ev.call Fn.rcl_clock_init 1,
        Ev.printf Msg.clock_init_failed [1],
        Ev.call Fn.rcl_clock_fini 0, Ev.free Obj.clock,
        Ev.call Fn.rcl_shutdown 0], some 0) := rfl
  rw [h]
  decide

/-- C2.  In an iteration in which `rcl_wait` returns `RCL_RET_OK` and no
entry of `wait_set->timers` with index below `size_of_timers` is non-null,
the trace is clear, add, wait and the spurious-wake diagnostic: no fire is
made, the diagnostic is printed once, control reaches the loop test and not
`_error`, and the loop goes on with the next iteration. -/
theorem spurious_wake_iteration (K : RclCodes) (w : World) (n : Nat)
    (h1 : w.wait_set_clear n = K.RCL_RET_OK) (h2 : w.wait_set_add_timer n = K.RCL_RET_OK)
    (h3 : w.wait n = K.RCL_RET_OK)
    (hnull : ∀ i, i < w.size_of_timers n → w.timers n i = false) :
    loopBody K w n =
      ([Ev.call Fn.rcl_wait_set_clear (w.wait_set_clear n),
        Ev.call Fn.rcl_wait_set_add_timer (w.wait_set_add_timer n),
        Ev.call Fn.rcl_wait (w.wait n),
        Ev.printf Msg.without_nonnull_timer []], Flow.next, w.wait n) ∧
    countCalls Fn.rcl_timer_call (loopBody K w n).1 = 0 ∧
    (loopBody K w n).1.count (Ev.printf Msg.without_nonnull_timer []) = 1 ∧
    ∀ fuel,
      doWhile K w false (fuel + 1) n =
        ((loopBody K w n).1 ++ (doWhile K w false fuel (n + 1)).1,
         (doWhile K w false fuel (n + 1)).2) ∧
      ∃ tl, (doWhile K w false (fuel + 2) n).1 =
        (loopBody K w n).1 ++
          Ev.call Fn.rcl_wait_set_clear (w.wait_set_clear (n + 1)) :: tl := by
  have hs := scan_null K w n (scanCount (w.size_of_timers n)) 0 (w.wait n) false
    (fun j _ hj => hnull j (by have := scanCount_le (w.size_of_timers n); omega))
  have hb : loopBody K w n =
      ([Ev.call Fn.rcl_wait_set_clear (w.wait_set_clear n),
        Ev.call Fn.rcl_wait_set_add_timer (w.wait_set_add_timer n),
        Ev.call Fn.rcl_wait (w.wait n),
        Ev.printf Msg.without_nonnull_timer []], Flow.next, w.wait n) := by
    rw [loopBody_wait_ok K w n h1 h2 h3, hs]
    rfl
  refine ⟨hb, ?_, ?_, ?_⟩
  · rw [hb]; rfl
  · rw [hb]; simp [List.count_cons]
  · exact doWhile_continues K w n (by rw [hb])

/-- C2, at the first iteration of a run in which the wait returns
`RCL_RET_OK` with the timer slot null. -/
theorem spurious_wake_iteration_witness :
    countCalls Fn.rcl_timer_call (loopBody rclCodes spuriousWorld 0).1 = 0 ∧
    (loopBody rclCodes spuriousWorld 0).1.count (Ev.printf Msg.without_nonnull_timer []) = 1 :=
  have h := spurious_wake_iteration rclCodes spuriousWorld 0 rfl rfl rfl (fun _ _ => rfl)
  ⟨h.2.1, h.2.2.1⟩

/-- C3.  In an iteration in which `rcl_wait` returns `RCL_RET_TIMEOUT`, the
trace is clear, add, wait and the timeout message, whatever the wait set
holds: no fire is made, the spurious-wake diagnostic is not printed, control
reaches the loop test and not `_error`, and the loop goes on with the next
iteration, which begins with the call of `rcl_wait_set_clear`. -/
theorem timeout_iteration (K : RclCodes) (w : World) (n : Nat)
    (h1 : w.wait_set_clear n = K.RCL_RET_OK) (h2 : w.wait_set_add_timer n = K.RCL_RET_OK)
    (h3 : w.wait n = K.RCL_RET_TIMEOUT) :
    loopBody K w n =
      ([Ev.call Fn.rcl_wait_set_clear (w.wait_set_clear n),
        Ev.call Fn.rcl_wait_set_add_timer (w.wait_set_add_timer n),
        Ev.call Fn.rcl_wait (w.wait n),
        Ev.printf Msg.no_awake_timer [WAIT_SET_TIMEOUT_MS]], Flow.next, w.wait n) ∧
    (∀ (size : Nat → Nat) (entries : Nat → Nat → Bool),
      loopBody K { w with size_of_timers := size, timers := entries } n = loopBody K w n) ∧
    countCalls Fn.rcl_timer_call (loopBody K w n).1 = 0 ∧
    (loopBody K w n).1.count (Ev.printf Msg.without_nonnull_timer []) = 0 ∧
    (loopBody K w n).1.count (Ev.printf Msg.no_awake_timer [WAIT_SET_TIMEOUT_MS]) = 1 ∧
    ∀ fuel,
      doWhile K w false (fuel + 1) n =
        ((loopBody K w n).1 ++ (doWhile K w false fuel (n + 1)).1,
         (doWhile K w false fuel (n + 1)).2) ∧
      ∃ tl, (doWhile K w false (fuel + 2) n).1 =
        (loopBody K w n).1 ++
          Ev.call Fn.rcl_wait_set_clear (w.wait_set_clear (n + 1)) :: tl := by
  have hb := loopBody_timeout K w n h1 h2 h3
  refine ⟨hb, ?_, ?_, ?_, ?_, ?_⟩
  · intro size entries
    rw [hb]
    exact loopBody_timeout K { w with size_of_timers := size, timers := entries } n h1 h2 h3
  · rw [hb]; rfl
  · rw [hb]; simp [List.count_cons]
  · rw [hb]; simp [List.count_cons]
  · exact doWhile_continues K w n (by rw [hb])

/-- C3, at the first iteration of the run `mixedWorld`, whose first wait
times out. -/
theorem timeout_iteration_witness :
    countCalls Fn.rcl_timer_call (loopBody rclCodes mixedWorld 0).1 = 0 ∧
    (loopBody rclCodes mixedWorld 0).2.1 = Flow.next :=
  have h := timeout_iteration rclCodes mixedWorld 0 rfl rfl rfl
  ⟨h.2.2.1, by rw [h.1]⟩

/-- C4 (fail-fast).  Take any run of `main` and any place in its trace where
a construction (clock, timer or wait-set init) or a loop operation (clear,
add, wait, fire) returned a fatal result `r`: not `RCL_RET_OK`, and for the
wait not `RCL_RET_TIMEOUT` either.  Then nothing before it was fatal, no
construction or loop operation is called after it, what follows is the
`printf` of `r` and then the teardown (the finalizations of what was
allocated, then the context shutdown), and `main` has returned.  When the
failed operation is a construction, the trace holds no clear, add, wait or
fire at all. -/
theorem fail_fast (K : RclCodes) (w : World) (fuel : Nat) (pre : List Ev) (f : Fn)
    (r : rcl_ret_t) (post : List Ev)
    (htr : (main K w fuel).1 = pre ++ Ev.call f r :: post)
    (hop : f.isOp = true) (hfatal : fatal K f r = true) :
    Clean K pre ∧
    (∀ g s, Ev.call g s ∈ post → g.isOp = false) ∧
    (f.isConstruction = true → ∀ g s, Ev.call g s ∈ pre ++ post → g.isLoopOp = false) ∧
    (∃ m, post = Ev.printf m [r] ::
      (teardown K w r true (timerAllocated f) (waitSetAllocated f)).1) ∧
    (main K w fuel).2 = some w.shutdown := by
  have hmem : Ev.call f r ∈ (main K w fuel).1 := by rw [htr]; simp
  have hfat : Ev.isFatal K (Ev.call f r) = true := by simp [Ev.isFatal, hop, hfatal]
  obtain ⟨h1, h2, hret⟩ := main_of_fatal K w fuel _ hmem hfat
  obtain ⟨_, A, f0, r0, m, hA, hclean, hf0, hfat0, hcon⟩ :=
    (main_shape K w fuel h1 h2).2 _ hret
  rw [hA] at htr
  have hB : ∀ b ∈ Ev.printf m [r0] ::
      (teardown K w r0 true (timerAllocated f0) (waitSetAllocated f0)).1,
      Ev.isFatal K b = false := by
    intro b hb
    rcases List.mem_cons.mp hb with h | h
    · rw [h]; rfl
    · exact teardown_clean K w _ _ _ _ b h
  obtain ⟨e1, e2, e3⟩ := split_unique (Ev.isFatal K) A (Ev.call f0 r0) _ pre (Ev.call f r)
    post htr hclean hB (by simp [Ev.isFatal, hf0, hfat0]) hfat
  have ef : f = f0 := by injection e2
  have er : r = r0 := by injection e2
  subst ef er e1 e3
  have hpost : ∀ g s, Ev.call g s ∈ Ev.printf m [r] ::
      (teardown K w r true (timerAllocated f) (waitSetAllocated f)).1 → g.isOp = false := by
    intro g s hg
    rcases List.mem_cons.mp hg with h | h
    · cases h
    · exact isOpCall_of_inTeardown _ (teardown_inTeardown K w _ _ _ _ _ h)
  refine ⟨hclean, hpost, ?_, ⟨m, rfl⟩, hret⟩
  intro hc g s hg
  rcases List.mem_append.mp hg with h | h
  · exact hcon hc g s h
  · have := hpost g s h
    simp only [Fn.isOp, Bool.or_eq_false_iff] at this
    exact this.2

/-- C4, at a concrete run: two clean iterations, then the fire of the third
iteration fails with 1. -/
theorem fail_fast_witness :
    (main rclCodes mixedWorld 5).2 = some mixedWorld.shutdown :=
  (fail_fast rclCodes mixedWorld 5
    [Ev.call Fn.rcl_init_options_init 0, Ev.call Fn.rcl_init 0,
     Ev.alloc Obj.clock, Ev.call Fn.rcl_clock_init 0,
     Ev.alloc Obj.timer, Ev.call Fn.rcl_timer_init 0,
     Ev.alloc Obj.wait_set, Ev.call Fn.rcl_wait_set_init 0,
     Ev.call Fn.rcl_wait_set_clear 0, Ev.call Fn.rcl_wait_set_add_timer 0,
     Ev.call Fn.rcl_wait 2, Ev.printf Msg.no_awake_timer [5000],
     Ev.call Fn.rcl_wait_set_clear 0, Ev.call Fn.rcl_wait_set_add_timer 0,
     Ev.call Fn.rcl_wait 0, Ev.printf Msg.without_nonnull_timer [],
     Ev.call Fn.rcl_wait_set_clear 0, Ev.call Fn.rcl_wait_set_add_timer 0,
     Ev.call Fn.rcl_wait 0]
    Fn.rcl_timer_call 1
    [Ev.printf Msg.timer_call_failed [1],
     Ev.call Fn.rcl_clock_fini 7, Ev.printf Msg.clock_fini_failed [7], Ev.free Obj.clock,
     Ev.call Fn.rcl_timer_fini 0, Ev.free Obj.timer,
     Ev.call Fn.rcl_wait_set_fini 9, Ev.printf Msg.wait_set_fini_failed [9],
     Ev.free Obj.wait_set, Ev.call Fn.rcl_shutdown 0]
    (by decide) (by decide) (by decide)).2.2.2.2

/-- C5.  Take a run of `main` that got past the bootstrap, in which the clock
init and the timer init succeeded (so that `clock`, `timer` and `wait_set`
are all allocated when the teardown is reached), and that has returned.
Whatever the three finalizations and the shutdown return, the trace holds
exactly one call of `rcl_clock_fini`, one of `rcl_timer_fini`, one of
`rcl_wait_set_fini` and one of `rcl_shutdown`, and every finalization result
that is not `RCL_RET_OK` is printed right after the call that returned it. -/
theorem finalizations_all_attempted (K : RclCodes) (w : World) (fuel : Nat) (r : rcl_ret_t)
    (h1 : w.init_options_init = K.RCL_RET_OK) (h2 : w.init = K.RCL_RET_OK)
    (c1 : w.clock_init = K.RCL_RET_OK) (c2 : w.timer_init = K.RCL_RET_OK)
    (hr : (main K w fuel).2 = some r) :
    countCalls Fn.rcl_clock_fini (main K w fuel).1 = 1 ∧
    countCalls Fn.rcl_timer_fini (main K w fuel).1 = 1 ∧
    countCalls Fn.rcl_wait_set_fini (main K w fuel).1 = 1 ∧
    countCalls Fn.rcl_shutdown (main K w fuel).1 = 1 ∧
    Ev.call Fn.rcl_clock_fini w.clock_fini ∈ (main K w fuel).1 ∧
    Ev.call Fn.rcl_timer_fini w.timer_fini ∈ (main K w fuel).1 ∧
    Ev.call Fn.rcl_wait_set_fini w.wait_set_fini ∈ (main K w fuel).1 ∧
    (w.clock_fini ≠ K.RCL_RET_OK →
      [Ev.call Fn.rcl_clock_fini w.clock_fini,
       Ev.printf Msg.clock_fini_failed [w.clock_fini]] <:+: (main K w fuel).1) ∧
    (w.timer_fini ≠ K.RCL_RET_OK →
      [Ev.call Fn.rcl_timer_fini w.timer_fini,
       Ev.printf Msg.timer_fini_failed [w.timer_fini]] <:+: (main K w fuel).1) ∧
    (w.wait_set_fini ≠ K.RCL_RET_OK →
      [Ev.call Fn.rcl_wait_set_fini w.wait_set_fini,
       Ev.printf Msg.wait_set_fini_failed [w.wait_set_fini]] <:+: (main K w fuel).1) := by
  obtain ⟨pre, r0, htr, hpre, _, _, _⟩ := main_census K w fuel r h1 h2 hr
  simp only [c1, c2, and_self, decide_True] at htr
  obtain ⟨z1, _⟩ := count_zero_of_beforeTeardown pre hpre
  obtain ⟨t1, t2, t3, t4⟩ := countCalls_teardown K w r0 true true true
  rw [htr]
  refine ⟨?_, ?_, ?_, ?_, ?_⟩
  · rw [countCalls_append, z1 Fn.rcl_clock_fini rfl, t1]; rfl
  · rw [countCalls_append, z1 Fn.rcl_timer_fini rfl, t2]; rfl
  · rw [countCalls_append, z1 Fn.rcl_wait_set_fini rfl, t3]; rfl
  · rw [countCalls_append, z1 Fn.rcl_shutdown rfl, t4]
  rw [teardown_trace]
  refine ⟨?_, ?_, ?_, ?_, ?_, ?_⟩
  · simp [finiBlock]
  · simp [finiBlock]
  · simp [finiBlock]
  · intro h
    exact infix_append_right _ (infix_append_left _ (printf_mem_finiBlock K _ _ _ h))
  · intro h
    exact infix_append_right _ (infix_append_right _
      (infix_append_left _ (printf_mem_finiBlock K _ _ _ h)))
  · intro h
    exact infix_append_right _ (infix_append_right _ (infix_append_right _
      (infix_append_left _ (printf_mem_finiBlock K _ _ _ h))))

/-- C5, at a concrete run in which `rcl_clock_fini` returns 7 and
`rcl_wait_set_fini` returns 9. -/
theorem finalizations_all_attempted_witness :
    countCalls Fn.rcl_clock_fini (main rclCodes mixedWorld 5).1 = 1 ∧
    countCalls Fn.rcl_timer_fini (main rclCodes mixedWorld 5).1 = 1 ∧
    countCalls Fn.rcl_wait_set_fini (main rclCodes mixedWorld 5).1 = 1 ∧
    countCalls Fn.rcl_shutdown (main rclCodes mixedWorld 5).1 = 1 :=
  have h := finalizations_all_attempted rclCodes mixedWorld 5 0 rfl rfl rfl rfl (by decide)
  ⟨h.1, h.2.1, h.2.2.1, h.2.2.2.1⟩

/-- C7.  Control leaves the loop only when `exit_cond` is true or a clear,
add, wait or fire returned a fatal result: this holds for the program with
any value of `exit_cond` in place of the `false` of the source.  With the
`false` of the source, when clear, add and every fire return `RCL_RET_OK`
and every wait returns `RCL_RET_OK` or `RCL_RET_TIMEOUT`, the loop started
at any iteration is still running after any number of iterations; and `main`,
once the bootstrap and the three constructions have succeeded, has not
returned after any number `fuel` of iterations, has called `rcl_wait` `fuel`
times, and has made no finalization and no shutdown call. -/
theorem loop_leaves_only_on_error (K : RclCodes) (w : World) :
    (∀ ec fuel r, w.clock_init = K.RCL_RET_OK → w.timer_init = K.RCL_RET_OK →
      w.wait_set_init = K.RCL_RET_OK → (mainFrom K w ec fuel).2 = some r →
      ec = true ∨ ∃ f s, f.isLoopOp = true ∧ fatal K f s = true ∧
        Ev.call f s ∈ (mainFrom K w ec fuel).1) ∧
    ((∀ n, IterationOk K w n) →
      (∀ fuel n, (doWhile K w false fuel n).2 = none) ∧
      (w.init_options_init = K.RCL_RET_OK → w.init = K.RCL_RET_OK →
        w.clock_init = K.RCL_RET_OK → w.timer_init = K.RCL_RET_OK →
        w.wait_set_init = K.RCL_RET_OK →
        ∀ fuel, (main K w fuel).2 = none ∧
          countCalls Fn.rcl_wait (main K w fuel).1 = fuel ∧
          ∀ g s, Ev.call g s ∈ (main K w fuel).1 →
            g.isFini = false ∧ g ≠ Fn.rcl_shutdown)) := by
  constructor
  · intro ec fuel r c1 c2 c3 hr
    have hm := mainFrom_constructed K w ec fuel c1 c2 c3
    cases hd : (doWhile K w ec fuel 0).2 with
    | none =>
      rw [hd] at hm
      simp only at hm
      rw [hm] at hr
      cases hr
    | some r0 =>
      rw [hd] at hm
      simp only at hm
      rcases doWhile_exit K w ec fuel 0 r0 hd with h | h
      · exact Or.inl h
      · right
        obtain ⟨pre, f, m, htr, _, hf, hfat⟩ := h
        refine ⟨f, r0, hf, hfat, ?_⟩
        rw [hm, htr]
        simp
  · intro hok
    refine ⟨fun fuel n => (doWhile_of_ok K w hok fuel n).1, ?_⟩
    intro h1 h2 c1 c2 c3 fuel
    obtain ⟨d1, d2⟩ := doWhile_of_ok K w hok fuel 0
    have hm := mainFrom_constructed K w false fuel c1 c2 c3
    rw [d1] at hm
    simp only at hm
    rw [main_boot K w fuel h1 h2, hm]
    refine ⟨rfl, ?_, ?_⟩
    · simp only [countCalls_append, d2]
      have e1 : countCalls Fn.rcl_wait (bootTrace w) = 0 := rfl
      have e2 : countCalls Fn.rcl_wait (constructTrace w) = 0 := rfl
      rw [e1, e2]
      omega
    · intro g s hg
      rcases List.mem_append.mp hg with h | h
      · simp only [bootTrace, List.mem_cons, List.mem_singleton, List.not_mem_nil,
          or_false] at h
        rcases h with h | h <;> cases h <;> exact ⟨rfl, by decide⟩
      · rcases List.mem_append.mp h with h | h
        · simp only [constructTrace, List.mem_cons, List.mem_singleton, List.not_mem_nil,
            or_false] at h
          rcases h with h | h | h | h | h | h <;> cases h <;> exact ⟨rfl, by decide⟩
        · have := doWhile_inLoop K w false fuel 0 _ h
          cases g <;> simp_all [Ev.inLoop, Fn.isLoopOp, Fn.isFini]

/-- C7, at the run where every call returns `RCL_RET_OK`: after three
iterations `main` has not returned and has waited three times. -/
theorem loop_leaves_only_on_error_witness :
    (main rclCodes okWorld 3).2 = none ∧
    countCalls Fn.rcl_wait (main rclCodes okWorld 3).1 = 3 :=
  ⟨(((loop_leaves_only_on_error rclCodes okWorld).2 okWorld_iterationOk).2
      rfl rfl rfl rfl rfl 3).1,
   (((loop_leaves_only_on_error rclCodes okWorld).2 okWorld_iterationOk).2
      rfl rfl rfl rfl rfl 3).2.1⟩

/-- C8.  In the run where the first `rcl_wait_set_clear` fails, so that the
teardown is reached with the clock, the timer and the wait set constructed,
the clock is finalized and deleted first, then the timer, then the wait
set. -/
theorem teardown_order_is_construction_order :
    (main rclCodes firstClearFails 1).1 =
      [Ev.call Fn.rcl_init_options_init 0, Ev.call Fn.rcl_init 0,
       Ev.alloc Obj.clock, Ev.call Fn.rcl_clock_init 0,
       Ev.alloc Obj.timer, Ev.call Fn.rcl_timer_init 0,
       Ev.alloc Obj.wait_set, Ev.call Fn.rcl_wait_set_init 0,
       Ev.call Fn.rcl_wait_set_clear 1, Ev.printf Msg.clear_failed [1],
       Ev.call Fn.rcl_clock_fini 0, Ev.free Obj.clock,
       Ev.call Fn.rcl_timer_fini 0, Ev.free Obj.timer,
       Ev.call Fn.rcl_wait_set_fini 0, Ev.free Obj.wait_set,
       Ev.call Fn.rcl_shutdown 0] := by
  decide

/-- C9.  Take a run of `main` that got past the bootstrap and has returned.
Each of the three objects is finalized as often as it was allocated, and
deleted as often, which is at most once.  When the clock init failed the
clock is finalized and the timer and the wait set are not; when the clock
init succeeded and the timer init failed, the clock and the timer are
finalized and the wait set is not; when both succeeded (the wait-set init
or the loop failed) all three are finalized.  In every case `rcl_shutdown`
is called once, and it is the last call of the trace, after the
finalizations. -/
theorem finalized_iff_allocated (K : RclCodes) (w : World) (fuel : Nat) (r : rcl_ret_t)
    (h1 : w.init_options_init = K.RCL_RET_OK) (h2 : w.init = K.RCL_RET_OK)
    (hr : (main K w fuel).2 = some r) :
    (∀ o : Obj, countCalls o.fini (main K w fuel).1 = (main K w fuel).1.count (Ev.alloc o) ∧
      (main K w fuel).1.count (Ev.free o) = (main K w fuel).1.count (Ev.alloc o) ∧
      (main K w fuel).1.count (Ev.alloc o) ≤ 1) ∧
    (w.clock_init ≠ K.RCL_RET_OK →
      countCalls Fn.rcl_clock_fini (main K w fuel).1 = 1 ∧
      countCalls Fn.rcl_timer_fini (main K w fuel).1 = 0 ∧
      countCalls Fn.rcl_wait_set_fini (main K w fuel).1 = 0) ∧
    (w.clock_init = K.RCL_RET_OK → w.timer_init ≠ K.RCL_RET_OK →
      countCalls Fn.rcl_clock_fini (main K w fuel).1 = 1 ∧
      countCalls Fn.rcl_timer_fini (main K w fuel).1 = 1 ∧
      countCalls Fn.rcl_wait_set_fini (main K w fuel).1 = 0) ∧
    (w.clock_init = K.RCL_RET_OK → w.timer_init = K.RCL_RET_OK →
      countCalls Fn.rcl_clock_fini (main K w fuel).1 = 1 ∧
      countCalls Fn.rcl_timer_fini (main K w fuel).1 = 1 ∧
      countCalls Fn.rcl_wait_set_fini (main K w fuel).1 = 1) ∧
    countCalls Fn.rcl_shutdown (main K w fuel).1 = 1 ∧
    ∃ before, (main K w fuel).1 = before ++ shutdownBlock K w.shutdown ∧
      countCalls Fn.rcl_shutdown before = 0 ∧
      ∀ o : Obj, countCalls o.fini before = countCalls o.fini (main K w fuel).1 := by
  obtain ⟨pre, r0, htr, hpre, a1, a2, a3⟩ := main_census K w fuel r h1 h2 hr
  obtain ⟨z1, z2⟩ := count_zero_of_beforeTeardown pre hpre
  obtain ⟨t1, t2, t3, t4⟩ := countCalls_teardown K w r0 true
    (decide (w.clock_init = K.RCL_RET_OK))
    (decide (w.clock_init = K.RCL_RET_OK ∧ w.timer_init = K.RCL_RET_OK))
  obtain ⟨f1, f2, f3⟩ := count_free_teardown K w r0 true
    (decide (w.clock_init = K.RCL_RET_OK))
    (decide (w.clock_init = K.RCL_RET_OK ∧ w.timer_init = K.RCL_RET_OK))
  have hc : countCalls Fn.rcl_clock_fini (main K w fuel).1 = 1 := by
    rw [htr, countCalls_append, z1 Fn.rcl_clock_fini rfl, t1]; rfl
  have ht : countCalls Fn.rcl_timer_fini (main K w fuel).1 =
      if w.clock_init = K.RCL_RET_OK then 1 else 0 := by
    rw [htr, countCalls_append, z1 Fn.rcl_timer_fini rfl, t2]; simp
  have hw : countCalls Fn.rcl_wait_set_fini (main K w fuel).1 =
      if w.clock_init = K.RCL_RET_OK ∧ w.timer_init = K.RCL_RET_OK then 1 else 0 := by
    rw [htr, countCalls_append, z1 Fn.rcl_wait_set_fini rfl, t3]; simp
  have hs : countCalls Fn.rcl_shutdown (main K w fuel).1 = 1 := by
    rw [htr, countCalls_append, z1 Fn.rcl_shutdown rfl, t4]
  refine ⟨?_, ?_, ?_, ?_, hs, ?_⟩
  · intro o
    cases o with
    | clock =>
      refine ⟨?_, ?_, ?_⟩
      · rw [show Obj.clock.fini = Fn.rcl_clock_fini from rfl, hc, htr, List.count_append,
          a1, count_alloc_teardown]
      · rw [htr, List.count_append, List.count_append, z2, f1, a1, count_alloc_teardown]
        rfl
      · rw [htr, List.count_append, a1, count_alloc_teardown]
    | timer =>
      refine ⟨?_, ?_, ?_⟩
      · rw [show Obj.timer.fini = Fn.rcl_timer_fini from rfl, ht, htr, List.count_append,
          a2, count_alloc_teardown]
        rfl
      · rw [htr, List.count_append, List.count_append, z2, f2, a2, count_alloc_teardown]
        simp
      · rw [htr, List.count_append, a2, count_alloc_teardown]
        split <;> simp
    | wait_set =>
      refine ⟨?_, ?_, ?_⟩
      · rw [show Obj.wait_set.fini = Fn.rcl_wait_set_fini from rfl, hw, htr,
          List.count_append, a3, count_alloc_teardown]
        rfl
      · rw [htr, List.count_append, List.count_append, z2, f3, a3, count_alloc_teardown]
        simp
      · rw [htr, List.count_append, a3, count_alloc_teardown]
        split <;> simp
  · intro c1
    exact ⟨hc, by rw [ht, if_neg c1], by rw [hw, if_neg (fun h => c1 h.1)]⟩
  · intro c1 c2
    exact ⟨hc, by rw [ht, if_pos c1], by rw [hw, if_neg (fun h => c2 h.2)]⟩
  · intro c1 c2
    exact ⟨hc, by rw [ht, if_pos c1], by rw [hw, if_pos ⟨c1, c2⟩]⟩
  · obtain ⟨tp, e1, e2, _⟩ := teardown_ends_with_shutdown K w r0 true
      (decide (w.clock_init = K.RCL_RET_OK))
      (decide (w.clock_init = K.RCL_RET_OK ∧ w.timer_init = K.RCL_RET_OK))
    refine ⟨pre ++ tp, ?_, ?_, ?_⟩
    · rw [htr, e1, List.append_assoc]
    · rw [countCalls_append, z1 Fn.rcl_shutdown rfl, e2]
    · intro o
      rw [htr, e1, ← List.append_assoc, countCalls_append (Obj.fini o) (pre ++ tp)]
      have : countCalls o.fini (shutdownBlock K w.shutdown) = 0 := by
        rw [countCalls_shutdownBlock]
        cases o <;> simp [Obj.fini]
      omega

/-- C9, at the run in which `rcl_timer_init` fails: the clock and the timer
are finalized, the wait set is not. -/
theorem finalized_iff_allocated_witness :
    countCalls Fn.rcl_clock_fini (main rclCodes timerInitFails 0).1 = 1 ∧
    countCalls Fn.rcl_timer_fini (main rclCodes timerInitFails 0).1 = 1 ∧
    countCalls Fn.rcl_wait_set_fini (main rclCodes timerInitFails 0).1 = 0 :=
  (finalized_iff_allocated rclCodes timerInitFails 0 0 rfl rfl (by decide)).2.2.1 rfl
    (by decide)

/-- C10.  The value `main` returns is fixed by three calls.  When
`rcl_init_options_init` fails, `main` returns its result at once: the trace
is that call and its `printf`.  When it succeeds and `rcl_init` fails,
`main` returns the result of `rcl_init` at once.  When both succeed, every
value `main` returns is the result of `rcl_shutdown`, which is the last call
of the trace (followed at most by its `printf`) and is made once; and `main`
does return, for every fuel when a construction fails, and for every fuel
beyond the first iteration that leaves by `goto _error`. -/
theorem main_return_value (K : RclCodes) (w : World) (fuel : Nat) :
    (w.init_options_init ≠ K.RCL_RET_OK →
      main K w fuel =
        ([Ev.call Fn.rcl_init_options_init w.init_options_init,
          Ev.printf Msg.init_options_failed [w.init_options_init]],
         some w.init_options_init)) ∧
    (w.init_options_init = K.RCL_RET_OK → w.init ≠ K.RCL_RET_OK →
      main K w fuel =
        ([Ev.call Fn.rcl_init_options_init w.init_options_init,
          Ev.call Fn.rcl_init w.init,
          Ev.printf Msg.rcl_init_failed [w.init]],
         some w.init)) ∧
    (w.init_options_init = K.RCL_RET_OK → w.init = K.RCL_RET_OK →
      (∀ r, (main K w fuel).2 = some r →
        r = w.shutdown ∧
        ∃ pre, (main K w fuel).1 = pre ++ shutdownBlock K w.shutdown ∧
          countCalls Fn.rcl_shutdown pre = 0) ∧
      ((w.clock_init ≠ K.RCL_RET_OK ∨ w.timer_init ≠ K.RCL_RET_OK ∨
        w.wait_set_init ≠ K.RCL_RET_OK ∨
        ∃ k, k < fuel ∧ (∀ m, m < k → (loopBody K w m).2.1 = Flow.next) ∧
          (loopBody K w k).2.1 = Flow.goto_error) →
        (main K w fuel).2 = some w.shutdown)) := by
  refine ⟨main_init_options_failed K w fuel, main_init_failed K w fuel, ?_⟩
  intro h1 h2
  refine ⟨?_, main_returns K w fuel h1 h2⟩
  intro r hr
  obtain ⟨e, pre, f, r0, m, htr, hclean, hf, hfat, hcon⟩ := (main_shape K w fuel h1 h2).2 r hr
  refine ⟨e, ?_⟩
  obtain ⟨tp, ht1, ht2, ht3⟩ :=
    teardown_ends_with_shutdown K w r0 true (timerAllocated f) (waitSetAllocated f)
  refine ⟨pre ++ Ev.call f r0 :: Ev.printf m [r0] :: tp, ?_, ?_⟩
  · rw [htr, ht1]; simp [List.append_assoc]
  · have hpre : countCalls Fn.rcl_shutdown pre = 0 := by
      have hmain : countCalls Fn.rcl_shutdown (main K w fuel).1 = 1 := by
        rw [main_boot K w fuel h1 h2] at hr ⊢
        simp only at hr ⊢
        by_cases c1 : w.clock_init = K.RCL_RET_OK
        · by_cases c2 : w.timer_init = K.RCL_RET_OK
          · by_cases c3 : w.wait_set_init = K.RCL_RET_OK
            · have hm := mainFrom_constructed K w false fuel c1 c2 c3
              cases hd : (doWhile K w false fuel 0).2 with
              | none =>
                rw [hd] at hm
                simp only at hm
                rw [hm] at hr
                cases hr
              | some r1 =>
                rw [hd] at hm
                simp only at hm
                rw [hm]
                have hl : countCalls Fn.rcl_shutdown (doWhile K w false fuel 0).1 = 0 := by
                  apply countCalls_zero_of_clean_ops
                  intro g s hg hgs
                  have := doWhile_inLoop K w false fuel 0 _ hg
                  rw [hgs] at this
                  cases this
                simp only [countCalls_append, hl, (countCalls_teardown K w r1 true true true).2.2.2]
                rfl
            · rw [mainFrom_wait_set_init_failed K w false fuel c1 c2 c3]
              simp only [countCalls_append, (countCalls_teardown K w _ true true true).2.2.2]
              rfl
          · rw [mainFrom_timer_init_failed K w false fuel c1 c2]
            simp only [countCalls_append, (countCalls_teardown K w _ true true false).2.2.2]
            rfl
        · rw [mainFrom_clock_init_failed K w false fuel c1]
          simp only [countCalls_append, (countCalls_teardown K w _ true false false).2.2.2]
          rfl
      rw [htr] at hmain
      have hcons : ∀ (l : List Ev), countCalls Fn.rcl_shutdown
          (Ev.call f r0 :: Ev.printf m [r0] :: l) = countCalls Fn.rcl_shutdown l +
            (if f = Fn.rcl_shutdown then 1 else 0) := by
        intro l
        by_cases hfs : f = Fn.rcl_shutdown <;>
          simp [countCalls, List.countP_cons, Ev.isCallOf, hfs]
      rw [countCalls_append, hcons, (countCalls_teardown K w r0 true _ _).2.2.2] at hmain
      omega
    have hfs : f ≠ Fn.rcl_shutdown := by
      intro h; rw [h] at hf; cases hf
    rw [countCalls_append]
    simp [countCalls, List.countP_cons, Ev.isCallOf, hfs] at ht2 hpre ⊢
    exact ⟨hpre, ht2⟩

/-- C10, at a concrete run: the fire of the third iteration fails with 1 and
`main` returns the result of `rcl_shutdown`. -/
theorem main_return_value_witness :
    (main rclCodes mixedWorld 5).2 = some mixedWorld.shutdown :=
  ((main_return_value rclCodes mixedWorld 5).2.2 rfl rfl).2
    (Or.inr (Or.inr (Or.inr ⟨2, by decide, by decide, by decide⟩)))

end RclTimer
